import Mathlib

/-!
# The Gemini relay handler (`functions/gemini-proxy.js`)

A shallow embedding of `onRequest`, the single Cloudflare Pages Function of the
repository, together with the parts of the JavaScript runtime it touches:
JavaScript values, truthiness, property reads, destructuring, `JSON.stringify`,
`JSON.parse`, the `Response` constructor, `fetch` and `console.error`.

The handler is modelled as a pure function of its `Context` (the inbound request
and the environment binding) and of the behaviour of the upstream (`Fetch`); it
yields the `Response` it returns together with the ordered list of effects it
performed. The outcomes of `await context.request.json()`, of `fetch(...)` and of
`await geminiResponse.json()` are inputs of the model, each either a value or a
thrown error.
-/

namespace GeminiProxy

/-! ## JavaScript values -/

/-- Decimal digits of a natural number, most significant first, with `fuel`
bounding the number of digits. -/
def natDigits : Nat → Nat → List Char → List Char
  | 0, _, acc => acc
  | fuel + 1, n, acc =>
    if n < 10 then Char.ofNat (48 + n) :: acc
    else natDigits fuel (n / 10) (Char.ofNat (48 + n % 10) :: acc)

/-- Decimal text of a natural number. -/
def natChars (n : Nat) : List Char := natDigits (n + 1) n []

/-- Decimal text of an integer. For an integer of at most 15 digits, the only
integers it is applied to, this is the text `Number::toString` prints. -/
def intChars : Int → List Char
  | .ofNat n => natChars n
  | .negSucc n => '-' :: natChars (n + 1)

/-- A JavaScript number as it occurs in a parsed JSON value. A finite number is
given by the text `Number::toString` prints for it (`0`, `-12`, `0.5`, `1e+21`),
which is also the text `JSON.stringify` writes for it; `-0`, printed `0`, is
thereby the same number as `0`. A number literal beyond the range of a double
(`1e999`) parses to an infinity. `NaN` does not occur in parsed JSON. -/
inductive JNum where
  | finite (text : String) : JNum
  | infinite (negative : Bool) : JNum

/-- The number with the integer value `n`, for `n` of at most 15 digits: such an
integer is a double, and `Number::toString` prints its decimal digits. -/
def JNum.ofInt (n : Int) : JNum := .finite (String.mk (intChars n))

/-- JavaScript `ToBoolean` on a number: zero is falsy, every other number of the
model is truthy. -/
def JNum.truthy : JNum → Bool
  | .finite text => text != "0"
  | .infinite _ => true

/-- The text `JSON.stringify` writes for a number: the text of a finite number,
`null` for an infinity. -/
def JNum.chars : JNum → List Char
  | .finite text => text.data
  | .infinite _ => ['n', 'u', 'l', 'l']

/-- JavaScript values that can flow through the handler: the JSON values plus
`undefined`. Strings are sequences of Unicode scalar values; an object is the
ordered list of its own enumerable properties. -/
inductive JVal where
  | undefined : JVal
  | null : JVal
  | bool (b : Bool) : JVal
  | num (x : JNum) : JVal
  | str (s : String) : JVal
  | arr (items : List JVal) : JVal
  | obj (props : List (String × JVal)) : JVal
  deriving Inhabited

/-- The thrown value of the model: the `message` of a JavaScript `Error`. -/
abbrev JsError := String

/-- JavaScript `ToBoolean` on the values of the model: `undefined`, `null`,
`false`, `0` and the empty string are falsy, everything else is truthy. -/
def JVal.truthy : JVal → Bool
  | .undefined => false
  | .null => false
  | .bool b => b
  | .num x => x.truthy
  | .str s => s != ""
  | .arr _ => true
  | .obj _ => true

/-- Whether a value is `null` or `undefined`. -/
def JVal.isNullish : JVal → Bool
  | .undefined => true
  | .null => true
  | _ => false

/-- The value of own property `key` in a property list, `undefined` when absent. -/
def lookupProp (key : String) : List (String × JVal) → JVal
  | [] => .undefined
  | (k, v) :: rest => if k = key then v else lookupProp key rest

/-- The message of the `TypeError` V8 raises when a property of `null` or
`undefined` is read. -/
def readNullishMessage (v : String) (key : String) : JsError :=
  "Cannot read properties of " ++ v ++ " (reading \x27" ++ key ++ "\x27)"

/-- The property `key` of a value, for the property names the handler uses
(`prompt`, `imageBase64Data`, `isChat`, `error`): an object yields its own
property, and every other value (booleans, numbers, strings, arrays) has no such
property and yields `undefined`. On `null` and `undefined`, where JavaScript
throws, it is `undefined` too; `getProp` and `destructure` throw there. -/
def JVal.field : JVal → String → JVal
  | .obj props, key => lookupProp key props
  | _, _ => .undefined

/-- Property read `v.key`: reading from `null` or `undefined` throws a
`TypeError`, every other value yields `v.field key`. -/
def JVal.getProp (v : JVal) (key : String) : Except JsError JVal :=
  match v with
  | .undefined => .error (readNullishMessage "undefined" key)
  | .null => .error (readNullishMessage "null" key)
  | _ => .ok (v.field key)

/-! ## `JSON.stringify` -/

/-- Lower-case hexadecimal digit of a number below 16. -/
def hexDigit (n : Nat) : Char :=
  if n < 10 then Char.ofNat (48 + n) else Char.ofNat (87 + n)

/-- The characters `JSON.stringify` writes for one character of a string
(`QuoteJSONString`): the quote and the backslash are escaped, the control
characters use the short escapes or `\u00xx`. -/
def escapeChar (c : Char) : List Char :=
  if c = '"' then ['\\', '"']
  else if c = '\\' then ['\\', '\\']
  else if c = '\x08' then ['\\', 'b']
  else if c = '\x0c' then ['\\', 'f']
  else if c = '\n' then ['\\', 'n']
  else if c = '\r' then ['\\', 'r']
  else if c = '\t' then ['\\', 't']
  else if c.toNat < 32 then
    ['\\', 'u', '0', '0', hexDigit (c.toNat / 16), hexDigit (c.toNat % 16)]
  else [c]

/-- Escape every character of a string body. -/
def escapeChars : List Char → List Char
  | [] => []
  | c :: cs => escapeChar c ++ escapeChars cs

/-- The quoted JSON text of a string. -/
def quoteChars (s : String) : List Char :=
  '"' :: (escapeChars s.data ++ ['"'])

/-- Join already serialized pieces with commas. -/
def commaJoin : List (List Char) → List Char
  | [] => []
  | [x] => x
  | x :: y :: rest => x ++ ',' :: commaJoin (y :: rest)

mutual
/-- The characters of `JSON.stringify v`, or `none` where JavaScript yields
`undefined` (no text at all). -/
def serialize : JVal → Option (List Char)
  | .undefined => none
  | .null => some ['n', 'u', 'l', 'l']
  | .bool true => some ['t', 'r', 'u', 'e']
  | .bool false => some ['f', 'a', 'l', 's', 'e']
  | .num x => some x.chars
  | .str s => some (quoteChars s)
  | .arr items => some ('[' :: (commaJoin (serializeItems items) ++ [']']))
  | .obj props => some ('\x7b' :: (commaJoin (serializeProps props) ++ ['\x7d']))
/-- Array elements: an `undefined` element is written as `null`. -/
def serializeItems : List JVal → List (List Char)
  | [] => []
  | v :: vs => (serialize v).getD ['n', 'u', 'l', 'l'] :: serializeItems vs
/-- Object members: a property whose value is `undefined` is left out. -/
def serializeProps : List (String × JVal) → List (List Char)
  | [] => []
  | (k, v) :: rest =>
    match serialize v with
    | none => serializeProps rest
    | some t => (quoteChars k ++ ':' :: t) :: serializeProps rest
end

/-- `JSON.stringify(v)` as the handler uses it (one argument), with `undefined`
results rendered as the empty body they become inside `new Response(...)`. -/
def JSON.stringify (v : JVal) : String :=
  match serialize v with
  | none => ""
  | some cs => String.mk cs

/-! ## `JSON.parse` -/

/-- JSON insignificant whitespace. -/
def isWs (c : Char) : Bool := c = ' ' || c = '\t' || c = '\n' || c = '\r'

/-- Drop leading whitespace. -/
def skipWs : List Char → List Char
  | [] => []
  | c :: cs => if isWs c then skipWs cs else c :: cs

/-- The value of a decimal digit. -/
def digitVal (c : Char) : Option Nat :=
  if 48 ≤ c.toNat ∧ c.toNat ≤ 57 then some (c.toNat - 48) else none

/-- The value of a hexadecimal digit, either case. -/
def hexVal (c : Char) : Option Nat :=
  if 48 ≤ c.toNat ∧ c.toNat ≤ 57 then some (c.toNat - 48)
  else if 97 ≤ c.toNat ∧ c.toNat ≤ 102 then some (c.toNat - 87)
  else if 65 ≤ c.toNat ∧ c.toNat ≤ 70 then some (c.toNat - 55)
  else none

/-- The code unit written by four hexadecimal digits. -/
def hex4 (a b c d : Char) : Option Nat :=
  match hexVal a, hexVal b, hexVal c, hexVal d with
  | some w, some x, some y, some z => some (((w * 16 + x) * 16 + y) * 16 + z)
  | _, _, _, _ => none

/-- Read the digits that continue a number whose value so far is `acc`. -/
def parseDigits : List Char → Nat → Nat × List Char
  | [], acc => (acc, [])
  | c :: cs, acc =>
    match digitVal c with
    | some d => parseDigits cs (acc * 10 + d)
    | none => (acc, c :: cs)

/-- A decimal integer without sign and without leading zeros: `0`, or a non-zero
digit followed by digits. -/
def parseNat : List Char → Option (Nat × List Char)
  | [] => none
  | c :: cs =>
    match digitVal c with
    | none => none
    | some 0 => some (0, cs)
    | some d => some (parseDigits cs d)

/-- The runtime's reading of a JSON number at the front of a text: the number it
denotes and the text after it, or `none` when the text does not start with a
number. This is a parameter of the model of `JSON.parse`. -/
abbrev NumberReader := List Char → Option (JNum × List Char)

/-- One element of a JSON string as written: a character (written plainly or by
a short escape), or the UTF-16 code unit of a `\u` escape. -/
inductive StrItem where
  | char (c : Char) : StrItem
  | unit (code : Nat) : StrItem

/-- The elements of a JSON string after its opening quote, up to and including
the closing quote, with the text after it. -/
def parseUnits : List Char → Option (List StrItem × List Char)
  | [] => none
  | c :: rest =>
    if c = '"' then some ([], rest)
    else if c = '\\' then
      match rest with
      | [] => none
      | e :: rest1 =>
        if e = 'u' then
          match rest1 with
          | a :: b :: c1 :: d :: rest2 =>
            match hex4 a b c1 d with
            | none => none
            | some code =>
              match parseUnits rest2 with
              | none => none
              | some (s, r) => some (.unit code :: s, r)
          | _ => none
        else
          let plain : Option Char :=
            if e = '"' then some '"'
            else if e = '\\' then some '\\'
            else if e = '/' then some '/'
            else if e = 'b' then some '\x08'
            else if e = 'f' then some '\x0c'
            else if e = 'n' then some '\n'
            else if e = 'r' then some '\r'
            else if e = 't' then some '\t'
            else none
          match plain with
          | none => none
          | some ch =>
            match parseUnits rest1 with
            | none => none
            | some (s, r) => some (.char ch :: s, r)
    else if c.toNat < 32 then none
    else
      match parseUnits rest with
      | none => none
      | some (s, r) => some (.char c :: s, r)

/-- The characters the elements of a string denote: an escaped high surrogate
followed by an escaped low surrogate is the character outside the basic plane
they encode; an unpaired surrogate has no value among the strings of the model
and is rejected; every other escaped code unit is its character. -/
def combineUnits : List StrItem → Option (List Char)
  | [] => some []
  | .char c :: rest =>
    match combineUnits rest with
    | none => none
    | some s => some (c :: s)
  | .unit code :: rest =>
    if 0xD800 ≤ code ∧ code ≤ 0xDBFF then
      match rest with
      | .unit low :: rest1 =>
        if 0xDC00 ≤ low ∧ low ≤ 0xDFFF then
          match combineUnits rest1 with
          | none => none
          | some s => some (Char.ofNat (0x10000 + (code - 0xD800) * 0x400 + (low - 0xDC00)) :: s)
        else none
      | _ => none
    else if 0xDC00 ≤ code ∧ code ≤ 0xDFFF then none
    else
      match combineUnits rest with
      | none => none
      | some s => some (Char.ofNat code :: s)

/-- The characters of a JSON string after its opening quote, up to and including
the closing quote, with the text after it. -/
def parseChars (cs : List Char) : Option (List Char × List Char) :=
  match parseUnits cs with
  | none => none
  | some (items, rest) =>
    match combineUnits items with
    | none => none
    | some s => some (s, rest)

/-- Remove a literal from the front of the text. -/
def dropLiteral : List Char → List Char → Option (List Char)
  | [], cs => some cs
  | _ :: _, [] => none
  | p :: ps, c :: cs => if p = c then dropLiteral ps cs else none

/-- The array index a property name denotes: the name is the decimal text,
without leading zeros, of an integer up to `2^32 - 2`. -/
def indexKey (k : String) : Option Nat :=
  match parseNat k.data with
  | some (n, []) => if n ≤ 4294967294 then some n else none
  | _ => none

/-- Whether a new property named `k` is enumerated before the property `k0` of
the object: array indices come first, in ascending order; the other names follow
in the order of their creation. -/
def keyBefore (k k0 : String) : Bool :=
  match indexKey k, indexKey k0 with
  | some a, some b => a < b
  | some _, none => true
  | none, _ => false

/-- Give an existing property a new value. -/
def replaceProp (k : String) (v : JVal) : List (String × JVal) → List (String × JVal)
  | [] => []
  | (k0, v0) :: rest => if k0 = k then (k, v) :: rest else (k0, v0) :: replaceProp k v rest

/-- Add a property that the object does not have yet, at its place in the
enumeration order. -/
def insertProp (k : String) (v : JVal) : List (String × JVal) → List (String × JVal)
  | [] => [(k, v)]
  | (k0, v0) :: rest =>
    if keyBefore k k0 then (k, v) :: (k0, v0) :: rest else (k0, v0) :: insertProp k v rest

/-- Define property `k` as `JSON.parse` does: a repeated name keeps its place
and takes the later value, a new name is added. -/
def setProp (k : String) (v : JVal) (props : List (String × JVal)) : List (String × JVal) :=
  if props.any (fun p => p.1 = k) then replaceProp k v props else insertProp k v props

/-- The object built from the members in text order. -/
def buildObject (members : List (String × JVal)) : List (String × JVal) :=
  members.foldl (fun acc m => setProp m.1 m.2 acc) []

mutual
/-- One JSON value at the front of the text, with the text that follows it;
`fuel` bounds the nesting and the number of elements. -/
def parseValue (readNumber : NumberReader) : Nat → List Char → Option (JVal × List Char)
  | 0, _ => none
  | fuel + 1, cs =>
    match skipWs cs with
    | [] => none
    | c :: rest =>
      if c = '"' then
        match parseChars rest with
        | none => none
        | some (s, r) => some (.str (String.mk s), r)
      else if c = '[' then
        match skipWs rest with
        | [] => none
        | d :: rest1 =>
          if d = ']' then some (.arr [], rest1)
          else
            match parseItems readNumber fuel (d :: rest1) with
            | none => none
            | some (items, r) => some (.arr items, r)
      else if c = '\x7b' then
        match skipWs rest with
        | [] => none
        | d :: rest1 =>
          if d = '\x7d' then some (.obj [], rest1)
          else
            match parseMembers readNumber fuel (d :: rest1) with
            | none => none
            | some (members, r) => some (.obj (buildObject members), r)
      else if c = 'n' then
        match dropLiteral ['u', 'l', 'l'] rest with
        | none => none
        | some r => some (.null, r)
      else if c = 't' then
        match dropLiteral ['r', 'u', 'e'] rest with
        | none => none
        | some r => some (.bool true, r)
      else if c = 'f' then
        match dropLiteral ['a', 'l', 's', 'e'] rest with
        | none => none
        | some r => some (.bool false, r)
      else
        match readNumber (c :: rest) with
        | none => none
        | some (x, r) => some (.num x, r)
/-- The elements of a non-empty array after `[`, up to and including `]`. -/
def parseItems (readNumber : NumberReader) : Nat → List Char → Option (List JVal × List Char)
  | 0, _ => none
  | fuel + 1, cs =>
    match parseValue readNumber fuel cs with
    | none => none
    | some (v, r) =>
      match skipWs r with
      | [] => none
      | c :: rest =>
        if c = ',' then
          match parseItems readNumber fuel rest with
          | none => none
          | some (vs, r1) => some (v :: vs, r1)
        else if c = ']' then some ([v], rest)
        else none
/-- The members of a non-empty object after `{`, up to and including `}`. -/
def parseMembers (readNumber : NumberReader) :
    Nat → List Char → Option (List (String × JVal) × List Char)
  | 0, _ => none
  | fuel + 1, cs =>
    match skipWs cs with
    | [] => none
    | q :: rest =>
      if q = '"' then
        match parseChars rest with
        | none => none
        | some (k, r) =>
          match skipWs r with
          | [] => none
          | colon :: r1 =>
            if colon = ':' then
              match parseValue readNumber fuel r1 with
              | none => none
              | some (v, r2) =>
                match skipWs r2 with
                | [] => none
                | c :: r3 =>
                  if c = ',' then
                    match parseMembers readNumber fuel r3 with
                    | none => none
                    | some (ms, r4) => some ((String.mk k, v) :: ms, r4)
                  else if c = '\x7d' then some ([(String.mk k, v)], r3)
                  else none
            else none
      else none
end

/-- `JSON.parse(text)`: the value of a JSON text, or the `SyntaxError` raised when
the text is not JSON. Numbers are read by the runtime's `readNumber`. -/
def JSON.parse (readNumber : NumberReader) (text : String) : Except JsError JVal :=
  match parseValue readNumber (text.length + 1) text.data with
  | none => .error "Unexpected token in JSON"
  | some (v, rest) =>
    match skipWs rest with
    | [] => .ok v
    | _ :: _ => .error "Unexpected non-whitespace character after JSON"

/-- Whether the text continues a number with a fraction or an exponent. -/
def startsFraction : List Char → Bool
  | [] => false
  | c :: _ => c = '.' || c = 'e' || c = 'E'

/-- An integer literal at the front of the text: an optional minus sign and a
decimal integer that no fraction or exponent follows. -/
def parseNumber (cs : List Char) : Option (Int × List Char) :=
  match cs with
  | [] => none
  | c :: rest =>
    if c = '-' then
      match parseNat rest with
      | none => none
      | some (n, r) => if startsFraction r then none else some (-(n : Int), r)
    else
      match parseNat (c :: rest) with
      | none => none
      | some (n, r) => if startsFraction r then none else some ((n : Int), r)

/-- A number reader for the integer literals of at most 15 digits, which denote
their own value exactly; it reads nothing else. It serves as the reader of the
sample runs. -/
def readInteger : NumberReader := fun cs =>
  match parseNumber cs with
  | none => none
  | some (n, rest) => if n.natAbs < 10 ^ 15 then some (JNum.ofInt n, rest) else none

/-! ## JSON values and what the runtime reads back -/

mutual
/-- Whether a value is a JSON value as `JSON.parse` and `Response.json()` produce
them: `undefined` occurs nowhere, no object repeats a property name, and the
properties of every object are in enumeration order. -/
def JVal.isJson : JVal → Bool
  | .undefined => false
  | .null => true
  | .bool _ => true
  | .num _ => true
  | .str _ => true
  | .arr items => allJson items
  | .obj props =>
    membersJson props && decide ((props.map Prod.fst).Nodup) &&
      decide ((props.map Prod.fst).Pairwise (fun a b => keyBefore b a = false))
/-- Every element is a JSON value. -/
def allJson : List JVal → Bool
  | [] => true
  | v :: vs => v.isJson && allJson vs
/-- Every property value is a JSON value. -/
def membersJson : List (String × JVal) → Bool
  | [] => true
  | (_, v) :: rest => v.isJson && membersJson rest
end

/-- Text after a value inside a serialization: the end, a comma or a closing
bracket. -/
def isDelim : List Char → Bool
  | [] => true
  | c :: _ => c = ',' || c = ']' || c = '\x7d'

/-- Whether a text starts as a JSON number does: with a digit or a minus sign. -/
def startsNumber : List Char → Bool
  | [] => false
  | c :: _ => c = '-' || (digitVal c).isSome

/-- A number that the runtime's reader reads back from its own text: the number
is finite, its text starts as a number, and reading that text where a value ends
gives the number again and leaves the rest. For the runtime's reader this holds
of every finite number. -/
def JNum.ReadsBack (readNumber : NumberReader) : JNum → Prop
  | .finite text =>
    startsNumber text.data = true ∧
      ∀ rest, isDelim rest = true → readNumber (text.data ++ rest) = some (.finite text, rest)
  | .infinite _ => False

mutual
/-- Every number in the value is read back by the runtime's reader. -/
def JVal.ReadsBack (readNumber : NumberReader) : JVal → Prop
  | .num x => x.ReadsBack readNumber
  | .arr items => itemsReadBack readNumber items
  | .obj props => membersReadBack readNumber props
  | _ => True
/-- Every number in the elements is read back. -/
def itemsReadBack (readNumber : NumberReader) : List JVal → Prop
  | [] => True
  | v :: vs => v.ReadsBack readNumber ∧ itemsReadBack readNumber vs
/-- Every number in the property values is read back. -/
def membersReadBack (readNumber : NumberReader) : List (String × JVal) → Prop
  | [] => True
  | (_, v) :: rest => v.ReadsBack readNumber ∧ membersReadBack readNumber rest
end

/-- The number read from a run of digits, continuing from `acc`. -/
def digitsValue : List Char → Nat → Nat
  | [], acc => acc
  | c :: cs, acc => digitsValue cs (acc * 10 + (c.toNat - 48))

/-- The round-trip statements for one amount of fuel. -/
def RoundTrip (readNumber : NumberReader) (fuel : Nat) : Prop :=
  (∀ (v : JVal) (cs rest : List Char), v.isJson = true → v.ReadsBack readNumber →
    serialize v = some cs → cs.length < fuel → isDelim rest = true →
    parseValue readNumber fuel (cs ++ rest) = some (v, rest)) ∧
  (∀ (vs : List JVal) (rest : List Char), vs ≠ [] → allJson vs = true →
    itemsReadBack readNumber vs →
    (commaJoin (serializeItems vs)).length + 2 ≤ fuel →
    parseItems readNumber fuel (commaJoin (serializeItems vs) ++ ']' :: rest) =
      some (vs, rest)) ∧
  (∀ (ps : List (String × JVal)) (rest : List Char), ps ≠ [] → membersJson ps = true →
    membersReadBack readNumber ps →
    (commaJoin (serializeProps ps)).length + 2 ≤ fuel →
    parseMembers readNumber fuel (commaJoin (serializeProps ps) ++ '\x7d' :: rest) =
      some (ps, rest))

/-! ## The runtime objects the handler touches -/

/-- A `Response`: its status, the headers passed in `init`, and the body text. -/
structure Response where
  status : Nat
  headers : List (String × String)
  body : String
  deriving DecidableEq

/-- The message of the `RangeError` the `Response` constructor raises for a
status outside 200 to 599. -/
def statusRangeMessage : JsError :=
  "Responses may only be constructed with status codes in the range 200 to 599, inclusive."

/-- The message of the `TypeError` the `Response` constructor raises when a body
is given together with a null-body status. -/
def nullBodyStatusMessage : JsError :=
  "Response with null body status (101, 204, 205, or 304) cannot have a body."

/-- The constructor call `new Response(body, { status, headers })` with a string
body, as the handler makes it: a status outside 200 to 599 throws a `RangeError`,
a null-body status (204, 205, 304) throws a `TypeError` because a body is given,
every other status yields the response. -/
def newResponse (body : String) (status : Nat) (headers : List (String × String)) :
    Except JsError Response :=
  if status < 200 ∨ 599 < status then .error statusRangeMessage
  else if status = 204 ∨ status = 205 ∨ status = 304 then .error nullBodyStatusMessage
  else .ok { status := status, headers := headers, body := body }

/-- The arguments of one call to the global `fetch(url, init)`. -/
structure FetchCall where
  url : String
  method : String
  headers : List (String × String)
  body : String
  deriving DecidableEq

/-- What the handler reads from the upstream response: `ok`, `status`, and the
outcome of `await geminiResponse.json()` (the parsed value, or the thrown
error). -/
structure UpstreamResponse where
  ok : Bool
  status : Nat
  json : Except JsError JVal

/-- The inbound request: its method and the outcome of
`await context.request.json()` (the parsed value, or the thrown error when the
body is not JSON). -/
structure Request where
  method : String
  json : Except JsError JVal

/-- The environment bindings; `GEMINI_API_KEY` is `none` when the variable is
not set (JavaScript `undefined`). -/
structure Env where
  GEMINI_API_KEY : Option String

/-- The `context` argument of a Pages Function. -/
structure Context where
  request : Request
  env : Env

/-- The global `fetch`: for each call, the response it resolves to or the error
it rejects with. -/
abbrev Fetch := FetchCall → Except JsError UpstreamResponse

/-- The observable effects of one invocation, in program order. -/
inductive Event where
  | readEnv : Event
  | requestJson : Event
  | fetch (call : FetchCall) : Event
  | responseJson : Event
  | consoleErrorValue (label : String) (value : JVal) : Event
  | consoleErrorException (label : String) (message : JsError) : Event

/-- A computation that performs effects and either yields a value or throws. -/
structure Eff (α : Type) where
  trace : List Event
  result : Except JsError α

/-- A computation without effects. -/
def Eff.pure {α : Type} (a : α) : Eff α := ⟨[], .ok a⟩

/-- Sequencing: a throw in the first computation skips the second. -/
def Eff.bind {α β : Type} (x : Eff α) (f : α → Eff β) : Eff β :=
  match x.result with
  | .error e => ⟨x.trace, .error e⟩
  | .ok a => ⟨x.trace ++ (f a).trace, (f a).result⟩

instance : Monad Eff where
  pure := Eff.pure
  bind := Eff.bind

/-- Record one effect. -/
def emit (e : Event) : Eff Unit := ⟨[e], .ok ()⟩

/-- Statement `throw new Error(message)`. -/
def raise {α : Type} (message : JsError) : Eff α := ⟨[], .error message⟩

/-- Use the outcome of a runtime operation: continue with its value or rethrow. -/
def await {α : Type} (r : Except JsError α) : Eff α := ⟨[], r⟩

/-- Statement `try { body } catch (error) { handler(error) }`. -/
def tryCatch {α : Type} (body : Eff α) (handler : JsError → Eff α) : Eff α :=
  match body.result with
  | .ok a => ⟨body.trace, .ok a⟩
  | .error e => ⟨body.trace ++ (handler e).trace, (handler e).result⟩

/-- JavaScript `!apiKey` for an environment binding: true when the variable is
unset or is the empty string. -/
def keyMissing : Option String → Bool
  | none => true
  | some k => k == ""

/-- The text of an environment binding inside a template literal. -/
def keyText : Option String → String
  | none => "undefined"
  | some k => k

/-- The message of the `TypeError` V8 raises when `null` or `undefined` is
destructured. -/
def destructureMessage (v : String) : JsError :=
  "Cannot destructure property \x27prompt\x27 of \x27(intermediate value)\x27 as it is " ++ v ++ "."

/-- A destructuring default: `x = d` takes `d` exactly when the property is
`undefined`. -/
def JVal.orDefault : JVal → JVal → JVal
  | .undefined, d => d
  | v, _ => v

/-- The fields bound by line 21. -/
structure Inbound where
  prompt : JVal
  imageBase64Data : JVal
  isChat : JVal

/-- The pattern `const { prompt, imageBase64Data, isChat = false } = v`:
destructuring `null` or `undefined` throws a `TypeError`; otherwise each name is
bound to the property of that name, `isChat` defaulting to `false`. -/
def destructure (v : JVal) : Except JsError Inbound :=
  match v with
  | .undefined => .error (destructureMessage "undefined")
  | .null => .error (destructureMessage "null")
  | _ => .ok ⟨v.field "prompt", v.field "imageBase64Data",
      (v.field "isChat").orDefault (.bool false)⟩

/-! ## The handler -/

/-- Line 23. -/
def modelName : String := "gemini-2.5-flash"

/-- Line 24: the template literal for the upstream URL. -/
def apiUrl (apiKey : Option String) : String :=
  "https://generativelanguage.googleapis.com/v1beta/models/" ++ modelName ++
    ":generateContent?key=" ++ keyText apiKey

/-- Lines 27-30: the text part, then the image part when `imageBase64Data` is
truthy. -/
def buildParts (prompt imageBase64Data : JVal) : List JVal :=
  let parts := [JVal.obj [("text", prompt)]]
  if imageBase64Data.truthy then
    parts ++ [JVal.obj [("inlineData",
      JVal.obj [("mimeType", JVal.str "image/jpeg"), ("data", imageBase64Data)])]]
  else parts

/-- Lines 38-50: the structured-output configuration. -/
def generationConfig : JVal :=
  .obj [
    ("responseMimeType", .str "application/json"),
    ("responseSchema", .obj [
      ("type", .str "OBJECT"),
      ("properties", .obj [
        ("simplified_question", .obj [("type", .str "STRING")]),
        ("solution_steps", .obj [("type", .str "STRING")]),
        ("final_answer", .obj [("type", .str "STRING")]),
        ("recommendations", .obj [("type", .str "STRING")])]),
      ("required", .arr [.str "simplified_question", .str "solution_steps",
        .str "final_answer", .str "recommendations"])])]

/-- Lines 32-51: the payload, with `generationConfig` assigned when `isChat` is
falsy. -/
def buildPayload (prompt imageBase64Data isChat : JVal) : List (String × JVal) :=
  let payload : List (String × JVal) :=
    [("contents", JVal.arr [JVal.obj [("role", JVal.str "user"),
      ("parts", JVal.arr (buildParts prompt imageBase64Data))]])]
  if !isChat.truthy then payload ++ [("generationConfig", generationConfig)] else payload

/-- Lines 54-58: the arguments passed to `fetch`. -/
def fetchCall (apiKey : Option String) (payload : List (String × JVal)) : FetchCall :=
  { url := apiUrl apiKey
    method := "POST"
    headers := [("Content-Type", "application/json")]
    body := JSON.stringify (.obj payload) }

/-- The call the handler makes for a key and the fields of the inbound body. -/
def upstreamCall (apiKey : Option String) (inbound : Inbound) : FetchCall :=
  fetchCall apiKey (buildPayload inbound.prompt inbound.imageBase64Data inbound.isChat)

/-- Lines 13-78: the body of the `try` block. -/
def tryBlock (fetch : Fetch) (context : Context) : Eff Response := do
  emit .readEnv
  let apiKey := context.env.GEMINI_API_KEY
  if keyMissing apiKey then
    raise "API anahtarı bulunamadı. Lütfen Cloudflare ayarlarını kontrol edin."
  else do
    emit .requestJson
    let body ← await context.request.json
    let inbound ← await (destructure body)
    emit (.fetch (upstreamCall apiKey inbound))
    let geminiResponse ← await (fetch (upstreamCall apiKey inbound))
    if !geminiResponse.ok then do
      emit .responseJson
      let errorBody ← await geminiResponse.json
      emit (.consoleErrorValue "Gemini API Error:" errorBody)
      let error ← await (errorBody.getProp "error")
      await (newResponse
        (JSON.stringify (.obj [
          ("message", .str "Gemini API tarafından bir hata döndürüldü."),
          ("error", error)]))
        geminiResponse.status
        [("Content-Type", "application/json")])
    else do
      emit .responseJson
      let data ← await geminiResponse.json
      await (newResponse (JSON.stringify data) 200 [("Content-Type", "application/json")])

/-- Lines 79-86: the `catch` block. -/
def catchBlock (error : JsError) : Eff Response := do
  emit (.consoleErrorException "Cloudflare Function Error:" error)
  await (newResponse
    (JSON.stringify (.obj [
      ("message", .str "Sunucu fonksiyonunda kritik bir hata oluştu."),
      ("error", .str error)]))
    500
    [("Content-Type", "application/json")])

/-- The exported handler. An exception raised outside the `try` block, or
inside the `catch` block, would leave the handler as the error of the result. -/
def onRequest (fetch : Fetch) (context : Context) : Eff Response :=
  if context.request.method ≠ "POST" then
    await (newResponse "Method Not Allowed" 405 [])
  else
    tryCatch (tryBlock fetch context) catchBlock

/-! ## Observations on a run -/

/-- The calls to `fetch` recorded in a trace, in order. -/
def fetchCalls : List Event → List FetchCall
  | [] => []
  | .fetch call :: rest => call :: fetchCalls rest
  | _ :: rest => fetchCalls rest

/-- The outcomes the upstream gave to the calls recorded in a trace. -/
def upstreamOutcomes (fetch : Fetch) (trace : List Event) :
    List (Except JsError UpstreamResponse) :=
  (fetchCalls trace).map fetch

/-! ## Sample environments -/

/-- An upstream that rejects every call with status 400 and a JSON error body. -/
def upstream400 : Fetch := fun _ =>
  .ok ⟨false, 400,
    .ok (.obj [("error", .obj [("code", .num (.ofInt 400)), ("message", .str "bad")])])⟩

/-- An upstream that answers every call with status 200 and a JSON body. -/
def upstream200 : Fetch := fun _ =>
  .ok ⟨true, 200, .ok (.obj [("candidates", .arr [.obj [("index", .num (.ofInt 0))]])])⟩

/-- An upstream that rejects every call with status 999 and a JSON error body. -/
def upstream999 : Fetch := fun _ =>
  .ok ⟨false, 999,
    .ok (.obj [("error", .obj [("code", .num (.ofInt 400)), ("message", .str "bad")])])⟩

/-- An upstream that rejects every call with status 400 and the body
`{"error": 1e999}`, whose number parses to `Infinity`. -/
def upstream400Infinity : Fetch := fun _ =>
  .ok ⟨false, 400, .ok (.obj [("error", .num (.infinite false))])⟩

/-- An upstream that answers every call with status 200 and the body
`{"score": 1e999}`, whose number parses to `Infinity`. -/
def upstream200Infinity : Fetch := fun _ =>
  .ok ⟨true, 200, .ok (.obj [("score", .num (.infinite false))])⟩

/-- An upstream that cannot be reached. -/
def upstreamDown : Fetch := fun _ => .error "fetch failed"

/-- A `POST` carrying the parsed body `body`, with the credential `key`. -/
def postOf (body : JVal) (key : Option String) : Context :=
  ⟨⟨"POST", .ok body⟩, ⟨key⟩⟩

/-! ## Round trip of numbers and strings -/

theorem digitVal_digit (d : Nat) (hd : d < 10) : digitVal (Char.ofNat (48 + d)) = some d := by
  interval_cases d <;> rfl

theorem digitVal_of_delim (c : Char) (rest : List Char) (h : isDelim (c :: rest) = true) :
    digitVal c = none := by
  simp only [isDelim, Bool.or_eq_true, decide_eq_true_eq] at h
  rcases h with (h | h) | h <;> subst h <;> rfl

theorem startsFraction_of_delim (rest : List Char) (h : isDelim rest = true) :
    startsFraction rest = false := by
  cases rest with
  | nil => rfl
  | cons c tl =>
    simp only [isDelim, Bool.or_eq_true, decide_eq_true_eq] at h
    rcases h with (h | h) | h <;> subst h <;> rfl

theorem digitsValue_append (xs ys : List Char) (acc : Nat) :
    digitsValue (xs ++ ys) acc = digitsValue ys (digitsValue xs acc) := by
  induction xs generalizing acc with
  | nil => rfl
  | cons c cs ih => simp [digitsValue, ih]

theorem parseDigits_append (ds rest : List Char) (acc : Nat)
    (hds : ∀ c ∈ ds, digitVal c = some (c.toNat - 48)) (hrest : isDelim rest = true) :
    parseDigits (ds ++ rest) acc = (digitsValue ds acc, rest) := by
  induction ds generalizing acc with
  | nil =>
    cases rest with
    | nil => rfl
    | cons c tl => simp [parseDigits, digitVal_of_delim c tl hrest, digitsValue]
  | cons c cs ih =>
    have hc := hds c (List.mem_cons_self _ _)
    simp only [List.cons_append, parseDigits, hc, digitsValue]
    exact ih _ (fun x hx => hds x (List.mem_cons_of_mem _ hx))

theorem natDigits_acc (fuel n : Nat) (acc : List Char) :
    natDigits fuel n acc = natDigits fuel n [] ++ acc := by
  induction fuel generalizing n acc with
  | zero => rfl
  | succ fuel ih =>
    simp only [natDigits]
    split
    · rfl
    · rw [ih (n / 10) (_ :: acc), ih (n / 10) [_]]
      simp

theorem toNat_digit (d : Nat) (hd : d < 10) : (Char.ofNat (48 + d)).toNat - 48 = d := by
  interval_cases d <;> rfl

theorem natDigits_spec (fuel n : Nat) (h : n < fuel) :
    (∀ c ∈ natDigits fuel n [], digitVal c = some (c.toNat - 48)) ∧
    digitsValue (natDigits fuel n []) 0 = n ∧
    (1 ≤ n → ∃ d ds, natDigits fuel n [] = d :: ds ∧ 1 ≤ d.toNat - 48) ∧
    natDigits fuel n [] ≠ [] := by
  induction fuel generalizing n with
  | zero => omega
  | succ fuel ih =>
    simp only [natDigits]
    split
    · rename_i hlt
      refine ⟨?_, ?_, ?_, by simp⟩
      · intro c hc
        simp only [List.mem_singleton] at hc
        subst hc
        rw [digitVal_digit n hlt, toNat_digit n hlt]
      · simp [digitsValue, toNat_digit n hlt]
      · intro h1
        exact ⟨_, [], rfl, by rw [toNat_digit n hlt]; exact h1⟩
    · rename_i hge
      have hlt : n / 10 < fuel := by omega
      have hmod : n % 10 < 10 := Nat.mod_lt _ (by decide)
      obtain ⟨h1, h2, h3, h4⟩ := ih (n / 10) hlt
      rw [natDigits_acc]
      refine ⟨?_, ?_, ?_, by simp [h4]⟩
      · intro c hc
        rcases List.mem_append.1 hc with hc | hc
        · exact h1 c hc
        · simp only [List.mem_singleton] at hc
          subst hc
          rw [digitVal_digit _ hmod, toNat_digit _ hmod]
      · rw [digitsValue_append, h2]
        simp only [digitsValue, toNat_digit _ hmod]
        omega
      · intro _
        obtain ⟨d, ds, hd, hd1⟩ := h3 (by omega)
        exact ⟨d, ds ++ [_], by rw [hd]; rfl, hd1⟩

theorem parseNat_natChars (n : Nat) (rest : List Char) (hrest : isDelim rest = true) :
    parseNat (natChars n ++ rest) = some (n, rest) := by
  obtain ⟨h1, h2, h3, _⟩ := natDigits_spec (n + 1) n (Nat.lt_succ_self n)
  rcases Nat.eq_zero_or_pos n with h0 | hpos
  · subst h0
    rfl
  · obtain ⟨d, ds, hd, hd1⟩ := h3 hpos
    have hdv := h1 d (by rw [hd]; exact List.mem_cons_self _ _)
    have hval : digitsValue ds (d.toNat - 48) = n := by
      have := h2
      rw [hd] at this
      simpa [digitsValue] using this
    have hds : ∀ c ∈ ds, digitVal c = some (c.toNat - 48) :=
      fun c hc => h1 c (by rw [hd]; exact List.mem_cons_of_mem _ hc)
    unfold natChars
    rw [hd]
    simp only [List.cons_append, parseNat, hdv]
    obtain ⟨m, hm⟩ : ∃ m, d.toNat - 48 = m + 1 := ⟨d.toNat - 48 - 1, by omega⟩
    rw [hm] at hval ⊢
    simp only
    rw [parseDigits_append ds rest _ hds hrest, hval]

theorem natChars_head (n : Nat) :
    ∃ d ds, natChars n = d :: ds ∧ digitVal d = some (d.toNat - 48) := by
  obtain ⟨h1, _, _, h4⟩ := natDigits_spec (n + 1) n (Nat.lt_succ_self n)
  unfold natChars
  cases hd : natDigits (n + 1) n [] with
  | nil => exact absurd hd h4
  | cons d ds => exact ⟨d, ds, rfl, h1 d (by rw [hd]; exact List.mem_cons_self _ _)⟩

theorem digit_ne_minus (d : Char) (h : digitVal d = some (d.toNat - 48)) : d ≠ '-' := by
  rintro rfl
  simp [digitVal] at h

theorem parseNumber_intChars (n : Int) (rest : List Char) (hrest : isDelim rest = true) :
    parseNumber (intChars n ++ rest) = some (n, rest) := by
  cases n with
  | ofNat n =>
    obtain ⟨d, ds, hd, hdv⟩ := natChars_head n
    have hp := parseNat_natChars n rest hrest
    simp only [intChars]
    rw [hd] at hp ⊢
    simp only [List.cons_append, parseNumber, digit_ne_minus d hdv, ↓reduceIte] at hp ⊢
    rw [hp]
    simp [startsFraction_of_delim rest hrest]
  | negSucc n =>
    simp only [intChars, List.cons_append, parseNumber, ↓reduceIte,
      parseNat_natChars (n + 1) rest hrest, startsFraction_of_delim rest hrest]
    rfl

theorem startsNumber_intChars (n : Int) : startsNumber (intChars n) = true := by
  cases n with
  | ofNat n =>
    obtain ⟨d, ds, hd, hdv⟩ := natChars_head n
    simp [intChars, hd, startsNumber, hdv]
  | negSucc n => rfl

/-- The sample reader reads the integers of at most 15 digits back. -/
theorem readInteger_ofInt (n : Int) (hn : n.natAbs < 10 ^ 15) :
    (JNum.ofInt n).ReadsBack readInteger := by
  refine ⟨startsNumber_intChars n, fun rest hrest => ?_⟩
  simp only [readInteger, JNum.ofInt, parseNumber_intChars n rest hrest]
  rw [if_pos hn]

theorem startsNumber_head (cs : List Char) (h : startsNumber cs = true) :
    ∃ c tl, cs = c :: tl ∧ isWs c = false ∧ c ≠ '"' ∧ c ≠ '[' ∧ c ≠ '\x7b' ∧
      c ≠ 'n' ∧ c ≠ 't' ∧ c ≠ 'f' ∧ c ≠ ']' ∧ c ≠ '\x7d' := by
  cases cs with
  | nil => simp [startsNumber] at h
  | cons c tl =>
    refine ⟨c, tl, rfl, ?_⟩
    simp only [startsNumber, Bool.or_eq_true, decide_eq_true_eq] at h
    rcases h with h | h
    · subst h
      exact ⟨by decide, by decide, by decide, by decide, by decide, by decide, by decide,
        by decide, by decide⟩
    · simp only [digitVal] at h
      split at h
      · rename_i hr
        simp only [isWs, Bool.or_eq_false_iff, decide_eq_false_iff_not]
        refine ⟨⟨⟨⟨?_, ?_⟩, ?_⟩, ?_⟩, ?_, ?_, ?_, ?_, ?_, ?_, ?_, ?_⟩ <;>
          rintro rfl <;> simp at hr
      · simp at h

theorem hex4_control (n : Nat) (hn : n < 32) :
    hex4 '0' '0' (hexDigit (n / 16)) (hexDigit (n % 16)) = some n := by
  interval_cases n <;> rfl

theorem parseUnits_escapeChars (s rest : List Char) :
    ∃ items, parseUnits (escapeChars s ++ '"' :: rest) = some (items, rest) ∧
      combineUnits items = some s := by
  induction s with
  | nil => exact ⟨[], by rw [parseUnits.eq_def]; simp [escapeChars], rfl⟩
  | cons c cs ih =>
    obtain ⟨items, hp, hc⟩ := ih
    simp only [escapeChars, escapeChar]
    split_ifs with h1 h2 h3 h4 h5 h6 h7 h8
    · subst h1
      exact ⟨.char '"' :: items, by rw [parseUnits.eq_def]; simp [hp],
        by simp [combineUnits, hc]⟩
    · subst h2
      exact ⟨.char '\\' :: items, by rw [parseUnits.eq_def]; simp [hp],
        by simp [combineUnits, hc]⟩
    · subst h3
      exact ⟨.char '\x08' :: items, by rw [parseUnits.eq_def]; simp [hp],
        by simp [combineUnits, hc]⟩
    · subst h4
      exact ⟨.char '\x0c' :: items, by rw [parseUnits.eq_def]; simp [hp],
        by simp [combineUnits, hc]⟩
    · subst h5
      exact ⟨.char '\n' :: items, by rw [parseUnits.eq_def]; simp [hp],
        by simp [combineUnits, hc]⟩
    · subst h6
      exact ⟨.char '\r' :: items, by rw [parseUnits.eq_def]; simp [hp],
        by simp [combineUnits, hc]⟩
    · subst h7
      exact ⟨.char '\t' :: items, by rw [parseUnits.eq_def]; simp [hp],
        by simp [combineUnits, hc]⟩
    · have hhi : ¬ (55296 ≤ c.toNat ∧ c.toNat ≤ 56319) := by omega
      have hlo : ¬ (56320 ≤ c.toNat ∧ c.toNat ≤ 57343) := by omega
      refine ⟨.unit c.toNat :: items, ?_, ?_⟩
      · rw [parseUnits.eq_def]
        simp [hp, hex4_control c.toNat h8]
      · rw [combineUnits.eq_def]
        simp [hc, hhi, hlo]
    · exact ⟨.char c :: items, by rw [parseUnits.eq_def]; simp [hp, h1, h2, h8],
        by simp [combineUnits, hc]⟩

theorem parseChars_escapeChars (s rest : List Char) :
    parseChars (escapeChars s ++ '"' :: rest) = some (s, rest) := by
  obtain ⟨items, hp, hc⟩ := parseUnits_escapeChars s rest
  simp [parseChars, hp, hc]

/-! ## Round trip of values -/

theorem skipWs_cons (c : Char) (cs : List Char) (h : isWs c = false) :
    skipWs (c :: cs) = c :: cs := by
  simp [skipWs, h]

theorem insertProp_last (k : String) (v : JVal) (acc : List (String × JVal))
    (h : ∀ k0 ∈ acc.map Prod.fst, keyBefore k k0 = false) :
    insertProp k v acc = acc ++ [(k, v)] := by
  induction acc with
  | nil => rfl
  | cons p ps ih =>
    obtain ⟨k0, v0⟩ := p
    have h0 : keyBefore k k0 = false := h k0 (by simp)
    have hrest : ∀ k1 ∈ ps.map Prod.fst, keyBefore k k1 = false :=
      fun k1 hk1 => h k1 (by simp only [List.map_cons, List.mem_cons]; exact Or.inr hk1)
    simp [insertProp, h0, ih hrest]

theorem setProp_fresh (k : String) (v : JVal) (acc : List (String × JVal))
    (hnew : k ∉ acc.map Prod.fst) (hord : ∀ k0 ∈ acc.map Prod.fst, keyBefore k k0 = false) :
    setProp k v acc = acc ++ [(k, v)] := by
  have hany : acc.any (fun p => decide (p.1 = k)) = false := by
    rw [List.any_eq_false]
    intro p hp hpk
    exact hnew (List.mem_map.2 ⟨p, hp, by simpa using hpk⟩)
  simp only [setProp, hany, Bool.false_eq_true, ↓reduceIte]
  exact insertProp_last k v acc hord

theorem foldl_setProp (ms acc : List (String × JVal))
    (hnodup : ((acc ++ ms).map Prod.fst).Nodup)
    (hord : ((acc ++ ms).map Prod.fst).Pairwise (fun a b => keyBefore b a = false)) :
    ms.foldl (fun a m => setProp m.1 m.2 a) acc = acc ++ ms := by
  induction ms generalizing acc with
  | nil => simp
  | cons m ms ih =>
    have hfresh : m.1 ∉ acc.map Prod.fst := by
      intro hmem
      rw [List.map_append, List.nodup_append] at hnodup
      exact hnodup.2.2 hmem (by simp)
    have hlast : ∀ k0 ∈ acc.map Prod.fst, keyBefore m.1 k0 = false := by
      intro k0 hk0
      rw [List.map_append, List.pairwise_append] at hord
      exact hord.2.2 k0 hk0 m.1 (by simp)
    simp only [List.foldl_cons]
    rw [setProp_fresh m.1 m.2 acc hfresh hlast, ih]
    · simp
    · simpa using hnodup
    · simpa using hord

theorem buildObject_ordered (ms : List (String × JVal)) (hnodup : (ms.map Prod.fst).Nodup)
    (hord : (ms.map Prod.fst).Pairwise (fun a b => keyBefore b a = false)) :
    buildObject ms = ms := by
  simpa [buildObject] using foldl_setProp ms [] (by simpa using hnodup) (by simpa using hord)

/-- The first character of a serialized value starts a value: it is neither
whitespace nor a closing bracket. -/
theorem serialize_head (readNumber : NumberReader) (v : JVal) (cs : List Char)
    (hr : v.ReadsBack readNumber) (h : serialize v = some cs) :
    ∃ c tl, cs = c :: tl ∧ isWs c = false ∧ c ≠ ']' ∧ c ≠ '\x7d' := by
  cases v with
  | undefined => simp [serialize] at h
  | null => simp [serialize] at h; subst h; exact ⟨_, _, rfl, by decide, by decide, by decide⟩
  | bool b =>
    cases b <;> simp [serialize] at h <;> subst h <;>
      exact ⟨_, _, rfl, by decide, by decide, by decide⟩
  | num x =>
    simp only [serialize, Option.some.injEq] at h
    subst h
    cases x with
    | finite text =>
      obtain ⟨c, tl, hc, hws, _, _, _, _, _, _, hb, hbr⟩ := startsNumber_head text.data hr.1
      exact ⟨c, tl, hc, hws, hb, hbr⟩
    | infinite neg => exact absurd hr (by simp [JVal.ReadsBack, JNum.ReadsBack])
  | str s =>
    simp [serialize, quoteChars] at h; subst h
    exact ⟨_, _, rfl, by decide, by decide, by decide⟩
  | arr items =>
    simp [serialize] at h; subst h
    exact ⟨_, _, rfl, by decide, by decide, by decide⟩
  | obj props =>
    simp [serialize] at h; subst h
    exact ⟨_, _, rfl, by decide, by decide, by decide⟩

theorem serialize_of_isJson (v : JVal) (h : v.isJson = true) : ∃ cs, serialize v = some cs := by
  cases v with
  | undefined => simp [JVal.isJson] at h
  | null => exact ⟨_, rfl⟩
  | bool b => cases b <;> exact ⟨_, rfl⟩
  | num n => exact ⟨_, rfl⟩
  | str s => exact ⟨_, rfl⟩
  | arr items => exact ⟨_, by rw [serialize]⟩
  | obj props => exact ⟨_, by rw [serialize]⟩

theorem commaJoin_cons_cons (x y : List Char) (rest : List (List Char)) :
    commaJoin (x :: y :: rest) = x ++ ',' :: commaJoin (y :: rest) := rfl

theorem serializeItems_cons (v : JVal) (vs : List JVal) (cs : List Char)
    (h : serialize v = some cs) : serializeItems (v :: vs) = cs :: serializeItems vs := by
  simp [serializeItems, h]

theorem serializeProps_cons (k : String) (v : JVal) (ps : List (String × JVal)) (cs : List Char)
    (h : serialize v = some cs) :
    serializeProps ((k, v) :: ps) = (quoteChars k ++ ':' :: cs) :: serializeProps ps := by
  simp [serializeProps, h]

theorem commaJoin_items_head (readNumber : NumberReader) (vs : List JVal) (hne : vs ≠ [])
    (hjson : allJson vs = true) (hr : itemsReadBack readNumber vs) :
    ∃ c tl, commaJoin (serializeItems vs) = c :: tl ∧ isWs c = false ∧ c ≠ ']' := by
  cases vs with
  | nil => exact absurd rfl hne
  | cons v vs =>
    simp only [allJson, Bool.and_eq_true] at hjson
    obtain ⟨cs, hcs⟩ := serialize_of_isJson v hjson.1
    obtain ⟨c, tl, hc, hws, hb, _⟩ := serialize_head readNumber v cs hr.1 hcs
    rw [serializeItems_cons v vs cs hcs, hc]
    cases hs : serializeItems vs with
    | nil => exact ⟨c, tl, rfl, hws, hb⟩
    | cons y r => exact ⟨c, tl ++ ',' :: commaJoin (y :: r), rfl, hws, hb⟩

theorem commaJoin_props_head (ps : List (String × JVal)) (hne : ps ≠ [])
    (hjson : membersJson ps = true) :
    ∃ tl, commaJoin (serializeProps ps) = '"' :: tl := by
  cases ps with
  | nil => exact absurd rfl hne
  | cons p ps =>
    obtain ⟨k, v⟩ := p
    simp only [membersJson, Bool.and_eq_true] at hjson
    obtain ⟨cs, hcs⟩ := serialize_of_isJson v hjson.1
    rw [serializeProps_cons k v ps cs hcs]
    cases hs : serializeProps ps with
    | nil => exact ⟨_, rfl⟩
    | cons y r => exact ⟨_, rfl⟩

theorem roundTrip_value (readNumber : NumberReader) (fuel : Nat)
    (ih : RoundTrip readNumber fuel)
    (v : JVal) (cs rest : List Char) (hv : v.isJson = true) (hread : v.ReadsBack readNumber)
    (hcs : serialize v = some cs)
    (hlen : cs.length < fuel + 1) (hrest : isDelim rest = true) :
    parseValue readNumber (fuel + 1) (cs ++ rest) = some (v, rest) := by
  cases v with
  | undefined => simp [JVal.isJson] at hv
  | null => simp [serialize] at hcs; subst hcs; simp [parseValue, skipWs, isWs, dropLiteral]
  | bool b =>
    cases b <;> simp [serialize] at hcs <;> subst hcs <;>
      simp [parseValue, skipWs, isWs, dropLiteral]
  | num x =>
    simp only [serialize, Option.some.injEq] at hcs
    subst hcs
    cases x with
    | infinite neg => exact absurd hread (by simp [JVal.ReadsBack, JNum.ReadsBack])
    | finite text =>
      have hp := hread.2 rest hrest
      obtain ⟨c, tl, hc, hws, h1, h2, h3, h4, h5, h6, _, _⟩ :=
        startsNumber_head text.data hread.1
      simp only [JNum.chars]
      rw [hc] at hp ⊢
      simp only [List.cons_append] at hp ⊢
      simp [parseValue, skipWs_cons c _ hws, h1, h2, h3, h4, h5, h6, hp]
  | str s =>
    simp only [serialize, Option.some.injEq] at hcs
    subst hcs
    simp [parseValue, quoteChars, skipWs, isWs, parseChars_escapeChars]
  | arr items =>
    simp only [serialize, Option.some.injEq] at hcs
    subst hcs
    cases hitems : items with
    | nil => simp [parseValue, serializeItems, commaJoin, skipWs, isWs]
    | cons w ws =>
      have hne : items ≠ [] := by simp [hitems]
      have hjson : allJson items = true := by simpa [JVal.isJson] using hv
      have hrb : itemsReadBack readNumber items := by simpa [JVal.ReadsBack] using hread
      obtain ⟨c, tl, hc, hws, hb⟩ := commaJoin_items_head readNumber items hne hjson hrb
      have hrec := ih.2.1 items rest hne hjson hrb (by simp at hlen; omega)
      rw [← hitems]
      rw [hc] at hrec
      simp only [List.cons_append, List.append_assoc, List.singleton_append, hc]
      simp only [List.cons_append] at hrec
      simp [parseValue, skipWs_cons '[' _ rfl, skipWs_cons c _ hws, hb, hrec]
  | obj props =>
    simp only [serialize, Option.some.injEq] at hcs
    subst hcs
    cases hprops : props with
    | nil => simp [parseValue, serializeProps, commaJoin, skipWs, isWs]
    | cons w ws =>
      have hne : props ≠ [] := by simp [hprops]
      have hv2 : (membersJson props = true ∧ (props.map Prod.fst).Nodup) ∧
          (props.map Prod.fst).Pairwise (fun a b => keyBefore b a = false) := by
        simpa [JVal.isJson] using hv
      have hrb : membersReadBack readNumber props := by simpa [JVal.ReadsBack] using hread
      obtain ⟨tl, hc⟩ := commaJoin_props_head props hne hv2.1.1
      have hrec := ih.2.2 props rest hne hv2.1.1 hrb (by simp at hlen; omega)
      rw [← hprops]
      rw [hc] at hrec
      simp only [List.cons_append, List.append_assoc, List.singleton_append, hc]
      simp only [List.cons_append] at hrec
      simp [parseValue, skipWs, isWs, hrec, buildObject_ordered props hv2.1.2 hv2.2]

theorem serialize_length_pos (readNumber : NumberReader) (v : JVal) (cs : List Char)
    (hr : v.ReadsBack readNumber) (h : serialize v = some cs) : 1 ≤ cs.length := by
  obtain ⟨c, tl, hc, _⟩ := serialize_head readNumber v cs hr h
  simp [hc]

theorem roundTrip_items (readNumber : NumberReader) (fuel : Nat)
    (ih : RoundTrip readNumber fuel)
    (vs : List JVal) (rest : List Char) (hne : vs ≠ []) (hjson : allJson vs = true)
    (hread : itemsReadBack readNumber vs)
    (hlen : (commaJoin (serializeItems vs)).length + 2 ≤ fuel + 1) :
    parseItems readNumber (fuel + 1) (commaJoin (serializeItems vs) ++ ']' :: rest) =
      some (vs, rest) := by
  cases vs with
  | nil => exact absurd rfl hne
  | cons v vs =>
    simp only [allJson, Bool.and_eq_true] at hjson
    obtain ⟨cs, hcs⟩ := serialize_of_isJson v hjson.1
    have hpos := serialize_length_pos readNumber v cs hread.1 hcs
    rw [serializeItems_cons v vs cs hcs] at hlen ⊢
    cases hvs : vs with
    | nil =>
      subst hvs
      simp only [serializeItems, commaJoin] at hlen ⊢
      have hval := ih.1 v cs (']' :: rest) hjson.1 hread.1 hcs (by omega) rfl
      simp [parseItems, hval, skipWs_cons ']' _ rfl]
    | cons w ws =>
      have hne2 : vs ≠ [] := by simp [hvs]
      obtain ⟨c, tl, hc, _, _⟩ := commaJoin_items_head readNumber vs hne2 hjson.2 hread.2
      rw [← hvs]
      cases hsi : serializeItems vs with
      | nil => rw [hsi] at hc; simp [commaJoin] at hc
      | cons y r =>
        rw [hsi] at hlen
        rw [commaJoin_cons_cons] at hlen ⊢
        simp only [List.length_append, List.length_cons] at hlen
        have hval := ih.1 v cs (',' :: (commaJoin (y :: r) ++ ']' :: rest)) hjson.1 hread.1
          hcs (by omega) rfl
        have hrec := ih.2.1 vs rest hne2 hjson.2 hread.2 (by rw [hsi]; omega)
        rw [hsi] at hrec
        simp only [List.append_assoc, List.cons_append]
        simp [parseItems, hval, skipWs_cons ',' _ rfl, hrec]

theorem roundTrip_members (readNumber : NumberReader) (fuel : Nat)
    (ih : RoundTrip readNumber fuel)
    (ps : List (String × JVal)) (rest : List Char) (hne : ps ≠ [])
    (hjson : membersJson ps = true) (hread : membersReadBack readNumber ps)
    (hlen : (commaJoin (serializeProps ps)).length + 2 ≤ fuel + 1) :
    parseMembers readNumber (fuel + 1) (commaJoin (serializeProps ps) ++ '\x7d' :: rest) =
      some (ps, rest) := by
  cases ps with
  | nil => exact absurd rfl hne
  | cons p ps =>
    obtain ⟨k, v⟩ := p
    simp only [membersJson, Bool.and_eq_true] at hjson
    obtain ⟨cs, hcs⟩ := serialize_of_isJson v hjson.1
    have hpos := serialize_length_pos readNumber v cs hread.1 hcs
    rw [serializeProps_cons k v ps cs hcs] at hlen ⊢
    cases hps : ps with
    | nil =>
      subst hps
      simp only [serializeProps, commaJoin, List.length_append, List.length_cons] at hlen ⊢
      have hval := ih.1 v cs ('\x7d' :: rest) hjson.1 hread.1 hcs (by omega) rfl
      simp only [quoteChars, List.cons_append, List.append_assoc, List.singleton_append]
      simp [parseMembers, skipWs_cons '"' _ rfl, parseChars_escapeChars,
        skipWs_cons ':' _ rfl, hval, skipWs_cons '\x7d' _ rfl]
    | cons w ws =>
      have hne2 : ps ≠ [] := by simp [hps]
      rw [← hps]
      cases hsi : serializeProps ps with
      | nil =>
        obtain ⟨tl, hc⟩ := commaJoin_props_head ps hne2 hjson.2
        rw [hsi] at hc; simp [commaJoin] at hc
      | cons y r =>
        rw [hsi] at hlen
        rw [commaJoin_cons_cons] at hlen ⊢
        simp only [List.length_append, List.length_cons] at hlen
        have hval := ih.1 v cs (',' :: (commaJoin (y :: r) ++ '\x7d' :: rest)) hjson.1
          hread.1 hcs (by omega) rfl
        have hrec := ih.2.2 ps rest hne2 hjson.2 hread.2 (by rw [hsi]; omega)
        rw [hsi] at hrec
        simp only [quoteChars, List.cons_append, List.append_assoc, List.singleton_append]
        simp [parseMembers, skipWs_cons '"' _ rfl, parseChars_escapeChars,
          skipWs_cons ':' _ rfl, hval, skipWs_cons ',' _ rfl, hrec]

theorem roundTrip_all (readNumber : NumberReader) (fuel : Nat) : RoundTrip readNumber fuel := by
  induction fuel with
  | zero =>
    refine ⟨?_, ?_, ?_⟩
    · intro v cs rest _ _ _ hlen; omega
    · intro vs rest _ _ _ hlen; omega
    · intro ps rest _ _ _ hlen; omega
  | succ fuel ih =>
    exact ⟨fun v cs rest hv hr hcs hlen hrest =>
        roundTrip_value readNumber fuel ih v cs rest hv hr hcs hlen hrest,
      fun vs rest hne hjson hr hlen => roundTrip_items readNumber fuel ih vs rest hne hjson hr hlen,
      fun ps rest hne hjson hr hlen =>
        roundTrip_members readNumber fuel ih ps rest hne hjson hr hlen⟩

/-- Parsing the serialization of a JSON value gives the value back, when the
runtime reads every number of the value back. -/
theorem parse_stringify (readNumber : NumberReader) (v : JVal) (hv : v.isJson = true)
    (hread : v.ReadsBack readNumber) :
    JSON.parse readNumber (JSON.stringify v) = .ok v := by
  obtain ⟨cs, hcs⟩ := serialize_of_isJson v hv
  have h := (roundTrip_all readNumber (cs.length + 1)).1 v cs [] hv hread hcs
    (Nat.lt_succ_self _) rfl
  simp only [List.append_nil] at h
  simp [JSON.parse, JSON.stringify, hcs, String.length, h, skipWs]

/-! ## The paths through the `try` block -/

section runs
variable (fetch : Fetch) (context : Context)

theorem tryBlock_keyMissing (hkey : keyMissing context.env.GEMINI_API_KEY = true) :
    tryBlock fetch context = ⟨[.readEnv],
      .error "API anahtarı bulunamadı. Lütfen Cloudflare ayarlarını kontrol edin."⟩ := by
  simp [tryBlock, hkey, Bind.bind, Eff.bind, emit, raise]

theorem tryBlock_requestJson_throws (hkey : keyMissing context.env.GEMINI_API_KEY = false)
    (e : JsError) (hjson : context.request.json = .error e) :
    tryBlock fetch context = ⟨[.readEnv, .requestJson], .error e⟩ := by
  simp [tryBlock, hkey, hjson, Bind.bind, Eff.bind, emit, await]

theorem tryBlock_destructure_throws (hkey : keyMissing context.env.GEMINI_API_KEY = false)
    (v : JVal) (hjson : context.request.json = .ok v)
    (e : JsError) (hd : destructure v = .error e) :
    tryBlock fetch context = ⟨[.readEnv, .requestJson], .error e⟩ := by
  simp [tryBlock, hkey, hjson, hd, Bind.bind, Eff.bind, emit, await]

theorem tryBlock_fetch_throws (hkey : keyMissing context.env.GEMINI_API_KEY = false)
    (v : JVal) (hjson : context.request.json = .ok v)
    (inbound : Inbound) (hd : destructure v = .ok inbound)
    (e : JsError) (hf : fetch (upstreamCall context.env.GEMINI_API_KEY inbound) = .error e) :
    tryBlock fetch context =
      ⟨[.readEnv, .requestJson, .fetch (upstreamCall context.env.GEMINI_API_KEY inbound)],
        .error e⟩ := by
  simp [tryBlock, hkey, hjson, hd, hf, Bind.bind, Eff.bind, emit, await]

theorem tryBlock_responseJson_throws (hkey : keyMissing context.env.GEMINI_API_KEY = false)
    (v : JVal) (hjson : context.request.json = .ok v)
    (inbound : Inbound) (hd : destructure v = .ok inbound)
    (resp : UpstreamResponse)
    (hf : fetch (upstreamCall context.env.GEMINI_API_KEY inbound) = .ok resp)
    (e : JsError) (hr : resp.json = .error e) :
    tryBlock fetch context =
      ⟨[.readEnv, .requestJson, .fetch (upstreamCall context.env.GEMINI_API_KEY inbound),
        .responseJson], .error e⟩ := by
  cases hok : resp.ok <;>
    simp [tryBlock, hkey, hjson, hd, hf, hr, hok, Bind.bind, Eff.bind, emit, await]

theorem tryBlock_upstream_error (hkey : keyMissing context.env.GEMINI_API_KEY = false)
    (v : JVal) (hjson : context.request.json = .ok v)
    (inbound : Inbound) (hd : destructure v = .ok inbound)
    (resp : UpstreamResponse)
    (hf : fetch (upstreamCall context.env.GEMINI_API_KEY inbound) = .ok resp)
    (hok : resp.ok = false) (errorBody : JVal) (hr : resp.json = .ok errorBody)
    (error : JVal) (he : errorBody.getProp "error" = .ok error) :
    tryBlock fetch context =
      ⟨[.readEnv, .requestJson, .fetch (upstreamCall context.env.GEMINI_API_KEY inbound),
        .responseJson, .consoleErrorValue "Gemini API Error:" errorBody],
        newResponse
          (JSON.stringify (.obj [("message", .str "Gemini API tarafından bir hata döndürüldü."),
            ("error", error)]))
          resp.status [("Content-Type", "application/json")]⟩ := by
  simp [tryBlock, hkey, hjson, hd, hf, hr, hok, he, Bind.bind, Eff.bind, emit, await]

theorem tryBlock_upstream_error_throws (hkey : keyMissing context.env.GEMINI_API_KEY = false)
    (v : JVal) (hjson : context.request.json = .ok v)
    (inbound : Inbound) (hd : destructure v = .ok inbound)
    (resp : UpstreamResponse)
    (hf : fetch (upstreamCall context.env.GEMINI_API_KEY inbound) = .ok resp)
    (hok : resp.ok = false) (errorBody : JVal) (hr : resp.json = .ok errorBody)
    (e : JsError) (he : errorBody.getProp "error" = .error e) :
    tryBlock fetch context =
      ⟨[.readEnv, .requestJson, .fetch (upstreamCall context.env.GEMINI_API_KEY inbound),
        .responseJson, .consoleErrorValue "Gemini API Error:" errorBody], .error e⟩ := by
  simp [tryBlock, hkey, hjson, hd, hf, hr, hok, he, Bind.bind, Eff.bind, emit, await]

theorem tryBlock_upstream_ok (hkey : keyMissing context.env.GEMINI_API_KEY = false)
    (v : JVal) (hjson : context.request.json = .ok v)
    (inbound : Inbound) (hd : destructure v = .ok inbound)
    (resp : UpstreamResponse)
    (hf : fetch (upstreamCall context.env.GEMINI_API_KEY inbound) = .ok resp)
    (hok : resp.ok = true) (data : JVal) (hr : resp.json = .ok data) :
    tryBlock fetch context =
      ⟨[.readEnv, .requestJson, .fetch (upstreamCall context.env.GEMINI_API_KEY inbound),
        .responseJson],
        .ok ⟨200, [("Content-Type", "application/json")], JSON.stringify data⟩⟩ := by
  simp [tryBlock, hkey, hjson, hd, hf, hr, hok, Bind.bind, Eff.bind, emit, await, newResponse]

end runs

/-! ## From the `try` block to the handler -/

section handler
variable (fetch : Fetch) (context : Context)

theorem onRequest_non_post (hm : context.request.method ≠ "POST") :
    onRequest fetch context = ⟨[], .ok ⟨405, [], "Method Not Allowed"⟩⟩ := by
  simp [onRequest, hm, await, newResponse]

theorem onRequest_of_ok (hm : context.request.method = "POST") (t : List Event) (r : Response)
    (h : tryBlock fetch context = ⟨t, .ok r⟩) : onRequest fetch context = ⟨t, .ok r⟩ := by
  simp [onRequest, hm, tryCatch, h]

theorem onRequest_of_throw (hm : context.request.method = "POST") (t : List Event) (e : JsError)
    (h : tryBlock fetch context = ⟨t, .error e⟩) :
    onRequest fetch context =
      ⟨t ++ [.consoleErrorException "Cloudflare Function Error:" e],
        .ok ⟨500, [("Content-Type", "application/json")],
          JSON.stringify (.obj [("message", .str "Sunucu fonksiyonunda kritik bir hata oluştu."),
            ("error", .str e)])⟩⟩ := by
  simp [onRequest, hm, tryCatch, h, catchBlock, Bind.bind, Eff.bind, emit, await, newResponse]

end handler

theorem keyMissing_some (k : String) (hk : k ≠ "") : keyMissing (some k) = false := by
  simp [keyMissing, hk]

theorem fetchCalls_tryBlock (fetch : Fetch) (context : Context)
    (hkey : keyMissing context.env.GEMINI_API_KEY = false)
    (v : JVal) (hjson : context.request.json = .ok v)
    (inbound : Inbound) (hd : destructure v = .ok inbound) :
    ∃ t r, tryBlock fetch context =
      ⟨.readEnv :: .requestJson :: .fetch (upstreamCall context.env.GEMINI_API_KEY inbound) :: t, r⟩
      ∧ fetchCalls t = [] := by
  cases hf : fetch (upstreamCall context.env.GEMINI_API_KEY inbound) with
  | error e => exact ⟨_, _, tryBlock_fetch_throws fetch context hkey v hjson inbound hd e hf, rfl⟩
  | ok resp =>
    cases hr : resp.json with
    | error e =>
      exact ⟨_, _, tryBlock_responseJson_throws fetch context hkey v hjson inbound hd resp hf e hr, rfl⟩
    | ok body =>
      cases hok : resp.ok with
      | true =>
        exact ⟨_, _, tryBlock_upstream_ok fetch context hkey v hjson inbound hd resp hf hok body hr, rfl⟩
      | false =>
        cases he : body.getProp "error" with
        | error e =>
          exact ⟨_, _, tryBlock_upstream_error_throws fetch context hkey v hjson inbound hd resp hf
            hok body hr e he, rfl⟩
        | ok x =>
          exact ⟨_, _, tryBlock_upstream_error fetch context hkey v hjson inbound hd resp hf
            hok body hr x he, rfl⟩

theorem fetchCalls_append (a b : List Event) : fetchCalls (a ++ b) = fetchCalls a ++ fetchCalls b := by
  induction a with
  | nil => rfl
  | cons e rest ih => cases e <;> simp [fetchCalls, ih]

theorem onRequest_result (fetch : Fetch) (context : Context)
    (hm : context.request.method = "POST") :
    (onRequest fetch context).result =
      match (tryBlock fetch context).result with
      | .ok r => .ok r
      | .error e => (catchBlock e).result := by
  simp only [onRequest, hm, ne_eq, not_true_eq_false, ↓reduceIte, tryCatch]
  cases (tryBlock fetch context).result <;> rfl

theorem catchBlock_result (e : JsError) :
    (catchBlock e).result = .ok ⟨500, [("Content-Type", "application/json")],
      JSON.stringify (.obj [("message", .str "Sunucu fonksiyonunda kritik bir hata oluştu."),
        ("error", .str e)])⟩ := rfl

theorem fetchCalls_onRequest_trace (fetch : Fetch) (context : Context)
    (hm : context.request.method = "POST") :
    fetchCalls (onRequest fetch context).trace = fetchCalls (tryBlock fetch context).trace := by
  simp only [onRequest, hm, ne_eq, not_true_eq_false, ↓reduceIte, tryCatch]
  cases (tryBlock fetch context).result with
  | ok r => rfl
  | error e =>
    simp [fetchCalls_append, catchBlock, Bind.bind, Eff.bind, emit, await, fetchCalls]

theorem fetchCalls_onRequest (fetch : Fetch) (context : Context)
    (hm : context.request.method = "POST") :
    fetchCalls (onRequest fetch context).trace =
      if keyMissing context.env.GEMINI_API_KEY then []
      else match context.request.json with
        | .error _ => []
        | .ok v => match destructure v with
          | .error _ => []
          | .ok inbound => [upstreamCall context.env.GEMINI_API_KEY inbound] := by
  rw [fetchCalls_onRequest_trace fetch context hm]
  cases hkey : keyMissing context.env.GEMINI_API_KEY with
  | true => rw [tryBlock_keyMissing fetch context hkey]; rfl
  | false =>
    cases hjson : context.request.json with
    | error e => rw [tryBlock_requestJson_throws fetch context hkey e hjson]; rfl
    | ok v =>
      cases hd : destructure v with
      | error e => rw [tryBlock_destructure_throws fetch context hkey v hjson e hd]; simp [hd, fetchCalls]
      | ok inbound =>
        obtain ⟨t, r, ht, hnil⟩ := fetchCalls_tryBlock fetch context hkey v hjson inbound hd
        rw [ht]; simp [fetchCalls, hnil, hd]

theorem tryBlock_result_congr (fetch1 fetch2 : Fetch) (c1 c2 : Context)
    (hreq : c1.request = c2.request)
    (hk1 : keyMissing c1.env.GEMINI_API_KEY = false)
    (hk2 : keyMissing c2.env.GEMINI_API_KEY = false)
    (hsame : ∀ v inbound, c1.request.json = .ok v → destructure v = .ok inbound →
      fetch1 (upstreamCall c1.env.GEMINI_API_KEY inbound) =
        fetch2 (upstreamCall c2.env.GEMINI_API_KEY inbound)) :
    (tryBlock fetch1 c1).result = (tryBlock fetch2 c2).result := by
  cases hjson : c1.request.json with
  | error e =>
    rw [tryBlock_requestJson_throws fetch1 c1 hk1 e hjson,
      tryBlock_requestJson_throws fetch2 c2 hk2 e (hreq ▸ hjson)]
  | ok v =>
    have hjson2 : c2.request.json = .ok v := hreq ▸ hjson
    cases hd : destructure v with
    | error e =>
      rw [tryBlock_destructure_throws fetch1 c1 hk1 v hjson e hd,
        tryBlock_destructure_throws fetch2 c2 hk2 v hjson2 e hd]
    | ok inbound =>
      have hs := hsame v inbound hjson hd
      cases hf : fetch1 (upstreamCall c1.env.GEMINI_API_KEY inbound) with
      | error e =>
        rw [tryBlock_fetch_throws fetch1 c1 hk1 v hjson inbound hd e hf,
          tryBlock_fetch_throws fetch2 c2 hk2 v hjson2 inbound hd e (hs ▸ hf)]
      | ok resp =>
        have hf2 := hs ▸ hf
        cases hr : resp.json with
        | error e =>
          rw [tryBlock_responseJson_throws fetch1 c1 hk1 v hjson inbound hd resp hf e hr,
            tryBlock_responseJson_throws fetch2 c2 hk2 v hjson2 inbound hd resp hf2 e hr]
        | ok body =>
          cases hok : resp.ok with
          | true =>
            rw [tryBlock_upstream_ok fetch1 c1 hk1 v hjson inbound hd resp hf hok body hr,
              tryBlock_upstream_ok fetch2 c2 hk2 v hjson2 inbound hd resp hf2 hok body hr]
          | false =>
            cases he : body.getProp "error" with
            | error e =>
              rw [tryBlock_upstream_error_throws fetch1 c1 hk1 v hjson inbound hd resp hf hok
                  body hr e he,
                tryBlock_upstream_error_throws fetch2 c2 hk2 v hjson2 inbound hd resp hf2 hok
                  body hr e he]
            | ok x =>
              rw [tryBlock_upstream_error fetch1 c1 hk1 v hjson inbound hd resp hf hok
                  body hr x he,
                tryBlock_upstream_error fetch2 c2 hk2 v hjson2 inbound hd resp hf2 hok
                  body hr x he]

/-! ## What a `POST` run sends and returns -/

theorem destructure_of_not_nullish (v : JVal) (hn : v.isNullish = false) :
    destructure v = .ok ⟨v.field "prompt", v.field "imageBase64Data",
      (v.field "isChat").orDefault (.bool false)⟩ := by
  cases v <;> simp [destructure, JVal.isNullish] at hn ⊢

theorem destructure_of_nullish (v : JVal) (hn : v.isNullish = true) :
    ∃ e, destructure v = .error e := by
  cases v <;> simp [destructure, JVal.isNullish] at hn ⊢

theorem not_nullish_of_field (v x : JVal) (key : String) (h : v.field key = x)
    (hx : x ≠ .undefined) : v.isNullish = false := by
  cases v <;> simp [JVal.field, JVal.isNullish] at h ⊢ <;> exact hx h.symm

/-- The calls of a `POST` run whose body parsed to `v`. -/
theorem fetchCalls_of_json (fetch : Fetch) (context : Context) (v : JVal)
    (hm : context.request.method = "POST") (hjson : context.request.json = .ok v) :
    fetchCalls (onRequest fetch context).trace =
      if keyMissing context.env.GEMINI_API_KEY || v.isNullish then []
      else [fetchCall context.env.GEMINI_API_KEY
        (buildPayload (v.field "prompt") (v.field "imageBase64Data")
          ((v.field "isChat").orDefault (.bool false)))] := by
  rw [fetchCalls_onRequest fetch context hm]
  cases hkey : keyMissing context.env.GEMINI_API_KEY with
  | true => simp
  | false =>
    cases hn : v.isNullish with
    | true =>
      obtain ⟨e, he⟩ := destructure_of_nullish v hn
      simp [hjson, he]
    | false => simp [hjson, destructure_of_not_nullish v hn, upstreamCall]

theorem apiUrl_some (k : String) :
    apiUrl (some k) =
      "https://generativelanguage.googleapis.com/v1beta/models/gemini-2.5-flash:generateContent?key="
        ++ k := by
  simp only [apiUrl, modelName, keyText]
  rfl

/-- The calls of a `POST` run with the credential `k`, spelled out. -/
theorem fetchCalls_of_key (fetch : Fetch) (context : Context) (k : String) (v : JVal)
    (hm : context.request.method = "POST") (hkey : context.env.GEMINI_API_KEY = some k)
    (hk : k ≠ "") (hjson : context.request.json = .ok v) :
    fetchCalls (onRequest fetch context).trace =
      if v.isNullish then []
      else [{ url := "https://generativelanguage.googleapis.com/v1beta/models/gemini-2.5-flash:generateContent?key=" ++ k
              method := "POST"
              headers := [("Content-Type", "application/json")]
              body := JSON.stringify (.obj
                (buildPayload (v.field "prompt") (v.field "imageBase64Data")
                  ((v.field "isChat").orDefault (.bool false)))) }] := by
  rw [fetchCalls_of_json fetch context v hm hjson, hkey]
  simp [keyMissing_some k hk, fetchCall, apiUrl_some]

theorem outcome_of_mem (fetch : Fetch) (context : Context) (resp : UpstreamResponse)
    (hup : .ok resp ∈ upstreamOutcomes fetch (onRequest fetch context).trace) :
    context.request.method = "POST" ∧ keyMissing context.env.GEMINI_API_KEY = false ∧
    ∃ v inbound, context.request.json = .ok v ∧ destructure v = .ok inbound ∧
      fetch (upstreamCall context.env.GEMINI_API_KEY inbound) = .ok resp := by
  by_cases hm : context.request.method = "POST"
  · rw [upstreamOutcomes, fetchCalls_onRequest fetch context hm] at hup
    refine ⟨hm, ?_⟩
    cases hkey : keyMissing context.env.GEMINI_API_KEY with
    | true => simp [hkey] at hup
    | false =>
      refine ⟨rfl, ?_⟩
      cases hjson : context.request.json with
      | error e => simp [hkey, hjson] at hup
      | ok v =>
        cases hd : destructure v with
        | error e => simp [hkey, hjson, hd] at hup
        | ok inbound =>
          simp [hkey, hjson, hd] at hup
          exact ⟨v, inbound, rfl, hd, hup.symm⟩
  · rw [onRequest_non_post fetch context hm] at hup
    simp [upstreamOutcomes, fetchCalls] at hup

theorem newResponse_ok (body : String) (status : Nat) (headers : List (String × String))
    (hrange : 200 ≤ status ∧ status ≤ 599)
    (hbody : status ≠ 204 ∧ status ≠ 205 ∧ status ≠ 304) :
    newResponse body status headers = .ok ⟨status, headers, body⟩ := by
  have h1 : ¬ (status < 200 ∨ 599 < status) := by omega
  have h2 : ¬ (status = 204 ∨ status = 205 ∨ status = 304) := by omega
  simp [newResponse, h1, h2]

theorem isJson_envelope (message : String) (e : JVal) (he : e.isJson = true) :
    (JVal.obj [("message", .str message), ("error", e)]).isJson = true := by
  have hord : keyBefore "error" "message" = false := by decide
  simp [JVal.isJson, membersJson, he, hord]

theorem readsBack_envelope (readNumber : NumberReader) (message : String) (e : JVal)
    (he : e.ReadsBack readNumber) :
    (JVal.obj [("message", .str message), ("error", e)]).ReadsBack readNumber := by
  simp [JVal.ReadsBack, membersReadBack, he]

theorem tryBlock_throws_of_mem (fetch : Fetch) (context : Context) (call : FetchCall)
    (hc : call ∈ fetchCalls (onRequest fetch context).trace) :
    (∀ e, fetch call = .error e → (tryBlock fetch context).result = .error e) ∧
    (∀ resp e, fetch call = .ok resp → resp.json = .error e →
      (tryBlock fetch context).result = .error e) := by
  by_cases hm : context.request.method = "POST"
  · rw [fetchCalls_onRequest fetch context hm] at hc
    cases hkey : keyMissing context.env.GEMINI_API_KEY with
    | true => simp [hkey] at hc
    | false =>
      cases hjson : context.request.json with
      | error e => simp [hkey, hjson] at hc
      | ok v =>
        cases hd : destructure v with
        | error e => simp [hkey, hjson, hd] at hc
        | ok inbound =>
          simp [hkey, hjson, hd] at hc
          subst hc
          constructor
          · intro e hf
            rw [tryBlock_fetch_throws fetch context hkey v hjson inbound hd e hf]
          · intro resp e hf hr
            rw [tryBlock_responseJson_throws fetch context hkey v hjson inbound hd resp hf e hr]
  · rw [onRequest_non_post fetch context hm] at hc
    simp [fetchCalls] at hc

/-! ## The properties of the handler -/

/-- C1: a request whose method is not `POST` is answered with status 405 and the
plain text `Method Not Allowed`, whatever the credential, the body and the
upstream are, and the run performs no effect: the credential is not read, the body
is not parsed and `fetch` is not called. -/
theorem non_post_rejected (fetch : Fetch) (context : Context)
    (hm : context.request.method ≠ "POST") :
    onRequest fetch context = ⟨[], .ok ⟨405, [], "Method Not Allowed"⟩⟩ :=
  onRequest_non_post fetch context hm

theorem non_post_rejected_witness :
    "GET" ≠ "POST" ∧
    onRequest upstream200 ⟨⟨"GET", .error "Unexpected end of JSON input"⟩, ⟨some "secret"⟩⟩ =
      ⟨[], .ok ⟨405, [], "Method Not Allowed"⟩⟩ :=
  ⟨by decide, non_post_rejected upstream200 _ (by decide)⟩

/-- C2: for two runs on the same request with non-empty credentials `k1` and `k2`,
if the upstream gave the same outcome (its response, or the error `fetch` threw) in
both runs, then the response returned to the client is the same in both runs. -/
theorem response_independent_of_credential (fetch1 fetch2 : Fetch) (request : Request)
    (k1 k2 : String) (hk1 : k1 ≠ "") (hk2 : k2 ≠ "")
    (hsame : upstreamOutcomes fetch1 (onRequest fetch1 ⟨request, ⟨some k1⟩⟩).trace =
      upstreamOutcomes fetch2 (onRequest fetch2 ⟨request, ⟨some k2⟩⟩).trace) :
    (onRequest fetch1 ⟨request, ⟨some k1⟩⟩).result =
      (onRequest fetch2 ⟨request, ⟨some k2⟩⟩).result := by
  by_cases hm : request.method = "POST"
  · rw [onRequest_result fetch1 _ hm, onRequest_result fetch2 _ hm]
    have h : (tryBlock fetch1 ⟨request, ⟨some k1⟩⟩).result =
        (tryBlock fetch2 ⟨request, ⟨some k2⟩⟩).result := by
      apply tryBlock_result_congr fetch1 fetch2 ⟨request, ⟨some k1⟩⟩ ⟨request, ⟨some k2⟩⟩ rfl
        (keyMissing_some k1 hk1)
        (keyMissing_some k2 hk2)
      intro v inbound hjson hd
      have hj : request.json = .ok v := hjson
      rw [upstreamOutcomes, upstreamOutcomes, fetchCalls_onRequest fetch1 _ hm,
        fetchCalls_onRequest fetch2 _ hm] at hsame
      simp [keyMissing_some k1 hk1, keyMissing_some k2 hk2, hj, hd] at hsame
      exact hsame
    rw [h]
  · rw [onRequest_non_post fetch1 _ hm, onRequest_non_post fetch2 _ hm]

theorem response_independent_of_credential_witness :
    (onRequest upstream400
        ⟨⟨"POST", .ok (.obj [("prompt", .str "2+2?")])⟩, ⟨some "key-one"⟩⟩).result =
      (onRequest upstream400
        ⟨⟨"POST", .ok (.obj [("prompt", .str "2+2?")])⟩, ⟨some "key-two"⟩⟩).result :=
  response_independent_of_credential upstream400 upstream400
    ⟨"POST", .ok (.obj [("prompt", .str "2+2?")])⟩ "key-one" "key-two" (by decide) (by decide)
    rfl

/-- C3: for a `POST` with a credential whose parsed body has `isChat` omitted or
`false`, the request sent upstream has as body the serialization of a payload
holding `contents` followed by `generationConfig`, with `responseMimeType`
`application/json` and a `responseSchema` of type `OBJECT` whose properties are
the four `STRING` fields and whose `required` list names the same four; the
configuration does not depend on the prompt or the image. That request is the
only one; the body `null`, which cannot be destructured, sends none. -/
theorem structured_output_requested (fetch : Fetch) (context : Context) (k : String) (v : JVal)
    (hm : context.request.method = "POST") (hkey : context.env.GEMINI_API_KEY = some k)
    (hk : k ≠ "") (hjson : context.request.json = .ok v)
    (hchat : v.field "isChat" = .undefined ∨ v.field "isChat" = .bool false) :
    fetchCalls (onRequest fetch context).trace =
      if v.isNullish then []
      else [{ url := "https://generativelanguage.googleapis.com/v1beta/models/gemini-2.5-flash:generateContent?key=" ++ k
              method := "POST"
              headers := [("Content-Type", "application/json")]
              body := JSON.stringify (.obj [
                ("contents", .arr [.obj [("role", .str "user"),
                  ("parts", .arr (buildParts (v.field "prompt") (v.field "imageBase64Data")))]]),
                ("generationConfig", .obj [
                  ("responseMimeType", .str "application/json"),
                  ("responseSchema", .obj [
                    ("type", .str "OBJECT"),
                    ("properties", .obj [
                      ("simplified_question", .obj [("type", .str "STRING")]),
                      ("solution_steps", .obj [("type", .str "STRING")]),
                      ("final_answer", .obj [("type", .str "STRING")]),
                      ("recommendations", .obj [("type", .str "STRING")])]),
                    ("required", .arr [.str "simplified_question", .str "solution_steps",
                      .str "final_answer", .str "recommendations"])])])]) }] := by
  rw [fetchCalls_of_key fetch context k v hm hkey hk hjson]
  rcases hchat with h | h <;> rw [h] <;> rfl

theorem structured_output_requested_witness :
    fetchCalls (onRequest upstream200
        (postOf (.obj [("prompt", .str "2+2?")]) (some "secret"))).trace =
      [{ url := "https://generativelanguage.googleapis.com/v1beta/models/gemini-2.5-flash:generateContent?key=secret"
         method := "POST"
         headers := [("Content-Type", "application/json")]
         body := JSON.stringify (.obj [
           ("contents", .arr [.obj [("role", .str "user"),
             ("parts", .arr [.obj [("text", .str "2+2?")]])]]),
           ("generationConfig", .obj [
             ("responseMimeType", .str "application/json"),
             ("responseSchema", .obj [
               ("type", .str "OBJECT"),
               ("properties", .obj [
                 ("simplified_question", .obj [("type", .str "STRING")]),
                 ("solution_steps", .obj [("type", .str "STRING")]),
                 ("final_answer", .obj [("type", .str "STRING")]),
                 ("recommendations", .obj [("type", .str "STRING")])]),
               ("required", .arr [.str "simplified_question", .str "solution_steps",
                 .str "final_answer", .str "recommendations"])])])]) }] :=
  structured_output_requested upstream200 (postOf (.obj [("prompt", .str "2+2?")]) (some "secret"))
    "secret" (.obj [("prompt", .str "2+2?")]) rfl rfl (by decide) rfl (Or.inl rfl)

/-- C4: for a `POST` with a credential whose parsed body has `isChat` equal to
`true`, exactly one request is sent upstream and its body is the serialization of
a payload whose single field is `contents`: there is no `generationConfig`. -/
theorem chat_payload_has_no_config (fetch : Fetch) (context : Context) (k : String) (v : JVal)
    (hm : context.request.method = "POST") (hkey : context.env.GEMINI_API_KEY = some k)
    (hk : k ≠ "") (hjson : context.request.json = .ok v)
    (hchat : v.field "isChat" = .bool true) :
    fetchCalls (onRequest fetch context).trace =
      [{ url := "https://generativelanguage.googleapis.com/v1beta/models/gemini-2.5-flash:generateContent?key=" ++ k
         method := "POST"
         headers := [("Content-Type", "application/json")]
         body := JSON.stringify (.obj [
           ("contents", .arr [.obj [("role", .str "user"),
             ("parts", .arr (buildParts (v.field "prompt") (v.field "imageBase64Data")))]])]) }] := by
  have hn : v.isNullish = false :=
    not_nullish_of_field v _ "isChat" hchat (by simp)
  rw [fetchCalls_of_key fetch context k v hm hkey hk hjson, hn, hchat]
  rfl

theorem chat_payload_has_no_config_witness :
    fetchCalls (onRequest upstream200
        (postOf (.obj [("prompt", .str "hello"), ("isChat", .bool true)]) (some "secret"))).trace =
      [{ url := "https://generativelanguage.googleapis.com/v1beta/models/gemini-2.5-flash:generateContent?key=secret"
         method := "POST"
         headers := [("Content-Type", "application/json")]
         body := "\x7b\"contents\":[\x7b\"role\":\"user\",\"parts\":[\x7b\"text\":\"hello\"\x7d]\x7d]\x7d" }] :=
  chat_payload_has_no_config upstream200
    (postOf (.obj [("prompt", .str "hello"), ("isChat", .bool true)]) (some "secret"))
    "secret" (.obj [("prompt", .str "hello"), ("isChat", .bool true)]) rfl rfl (by decide) rfl rfl

/-- C5 fails for the empty string: a `POST` whose body supplies `imageBase64Data`
as `""` sends a payload with a single part, the text. -/
theorem empty_image_sends_one_part :
    (JVal.obj [("prompt", .str "p"), ("imageBase64Data", .str ""),
      ("isChat", .bool true)]).field "imageBase64Data" = .str "" ∧
    (fetchCalls (onRequest upstream200
        (postOf (.obj [("prompt", .str "p"), ("imageBase64Data", .str ""),
          ("isChat", .bool true)]) (some "secret"))).trace).map FetchCall.body =
      [JSON.stringify (.obj [
        ("contents", .arr [.obj [("role", .str "user"),
          ("parts", .arr [.obj [("text", .str "p")]])]])])] ∧
    (fetchCalls (onRequest upstream200
        (postOf (.obj [("prompt", .str "p"), ("imageBase64Data", .str ""),
          ("isChat", .bool true)]) (some "secret"))).trace).map FetchCall.body =
      ["\x7b\"contents\":[\x7b\"role\":\"user\",\"parts\":[\x7b\"text\":\"p\"\x7d]\x7d]\x7d"] ∧
    (buildParts (.str "p") (.str "")).length = 1 :=
  ⟨rfl, rfl, rfl, rfl⟩

/-- C5, for a non-empty image: for a `POST` whose body supplies `imageBase64Data`
as a non-empty string `s`, the body of the request sent upstream (one request when
the credential is present, none otherwise) is the serialization of a payload with
one `user` message whose parts are the text part and an `inlineData` part with
`mimeType` `image/jpeg` and `data` `s`; when the body omits `imageBase64Data` the
parts are the text part alone (one request when the credential is present and the
body is not `null`, none otherwise). -/
theorem parts_follow_image (fetch : Fetch) (context : Context) (v : JVal)
    (hm : context.request.method = "POST") (hjson : context.request.json = .ok v) :
    (∀ s : String, s ≠ "" → v.field "imageBase64Data" = .str s →
      (fetchCalls (onRequest fetch context).trace).map FetchCall.body =
        if keyMissing context.env.GEMINI_API_KEY then []
        else [JSON.stringify (.obj
          (("contents", .arr [.obj [("role", .str "user"),
            ("parts", .arr [.obj [("text", v.field "prompt")],
              .obj [("inlineData",
                .obj [("mimeType", .str "image/jpeg"), ("data", .str s)])]])]]) ::
            (if ((v.field "isChat").orDefault (.bool false)).truthy then []
              else [("generationConfig", generationConfig)])))]) ∧
    (v.field "imageBase64Data" = .undefined →
      (fetchCalls (onRequest fetch context).trace).map FetchCall.body =
        if keyMissing context.env.GEMINI_API_KEY || v.isNullish then []
        else [JSON.stringify (.obj
          (("contents", .arr [.obj [("role", .str "user"),
            ("parts", .arr [.obj [("text", v.field "prompt")]])]]) ::
            (if ((v.field "isChat").orDefault (.bool false)).truthy then []
              else [("generationConfig", generationConfig)])))]) := by
  constructor
  · intro s hs h
    have hn : v.isNullish = false := not_nullish_of_field v _ _ h (by simp)
    have ht : (JVal.str s).truthy = true := by simp [JVal.truthy, hs]
    rw [fetchCalls_of_json fetch context v hm hjson, hn, h]
    cases hkey : keyMissing context.env.GEMINI_API_KEY
    · cases hc : ((v.field "isChat").orDefault (.bool false)).truthy <;>
        simp [fetchCall, buildPayload, buildParts, ht, hc]
    · simp
  · intro h
    have ht : JVal.undefined.truthy = false := rfl
    rw [fetchCalls_of_json fetch context v hm hjson, h]
    cases hkn : keyMissing context.env.GEMINI_API_KEY || v.isNullish
    · cases hc : ((v.field "isChat").orDefault (.bool false)).truthy <;>
        simp [fetchCall, buildPayload, buildParts, ht, hc]
    · simp

theorem parts_follow_image_witness :
    (fetchCalls (onRequest upstream200
        (postOf (.obj [("prompt", .str "p"), ("imageBase64Data", .str "QUJD"),
          ("isChat", .bool true)]) (some "secret"))).trace).map FetchCall.body =
      ["\x7b\"contents\":[\x7b\"role\":\"user\",\"parts\":[\x7b\"text\":\"p\"\x7d,\x7b\"inlineData\":\x7b\"mimeType\":\"image/jpeg\",\"data\":\"QUJD\"\x7d\x7d]\x7d]\x7d"] :=
  (parts_follow_image upstream200
    (postOf (.obj [("prompt", .str "p"), ("imageBase64Data", .str "QUJD"),
      ("isChat", .bool true)]) (some "secret"))
    (.obj [("prompt", .str "p"), ("imageBase64Data", .str "QUJD"), ("isChat", .bool true)])
    rfl rfl).1 "QUJD" (by decide) rfl

/-- C6 fails in two ways. An upstream status that a `Response` cannot carry (here
999) makes the constructor throw inside the `try` block, and the answer is 500,
not 999. And an `error` property that is an infinity (the upstream text `1e999`)
is written as `null`, so the `error` field returned is `null`, not that number. -/
theorem unrelayable_upstream_errors :
    upstreamOutcomes upstream999
        (onRequest upstream999 (postOf (.obj [("prompt", .str "p")]) (some "secret"))).trace =
      [.ok ⟨false, 999, .ok (.obj [("error",
        .obj [("code", .num (.ofInt 400)), ("message", .str "bad")])])⟩] ∧
    (onRequest upstream999 (postOf (.obj [("prompt", .str "p")]) (some "secret"))).result =
      .ok ⟨500, [("Content-Type", "application/json")],
        JSON.stringify (.obj [("message", .str "Sunucu fonksiyonunda kritik bir hata oluştu."),
          ("error", .str statusRangeMessage)])⟩ ∧
    upstreamOutcomes upstream400Infinity
        (onRequest upstream400Infinity
          (postOf (.obj [("prompt", .str "p")]) (some "secret"))).trace =
      [.ok ⟨false, 400, .ok (.obj [("error", .num (.infinite false))])⟩] ∧
    (onRequest upstream400Infinity
        (postOf (.obj [("prompt", .str "p")]) (some "secret"))).result =
      .ok ⟨400, [("Content-Type", "application/json")],
        "\x7b\"message\":\"Gemini API tarafından bir hata döndürüldü.\",\"error\":null\x7d"⟩ ∧
    JSON.parse readInteger
        "\x7b\"message\":\"Gemini API tarafından bir hata döndürüldü.\",\"error\":null\x7d" =
      .ok (.obj [("message", .str "Gemini API tarafından bir hata döndürüldü."),
        ("error", .null)]) ∧
    JVal.null ≠ JVal.num (.infinite false) :=
  ⟨rfl, rfl, rfl, rfl, rfl, by simp⟩

/-- C6, for a status a `Response` can carry: when the upstream answers the call of
a `POST` run with a non-successful status `s` between 200 and 599 that is not a
null-body status (204, 205, 304) and a JSON body whose `error` property is `e`,
the handler returns status `s`, `Content-Type: application/json`, and the
serialization of `{ message: <fixed text>, error: e }`; when `e` is a JSON value
whose numbers are finite, so that the runtime reads them back, parsing that body
gives the fixed message and `e` back. -/
theorem upstream_error_relayed (fetch : Fetch) (context : Context) (resp : UpstreamResponse)
    (errorBody e : JVal)
    (hup : .ok resp ∈ upstreamOutcomes fetch (onRequest fetch context).trace)
    (hok : resp.ok = false) (hr : resp.json = .ok errorBody)
    (he : errorBody.getProp "error" = .ok e)
    (hrange : 200 ≤ resp.status ∧ resp.status ≤ 599)
    (hbody : resp.status ≠ 204 ∧ resp.status ≠ 205 ∧ resp.status ≠ 304) :
    (onRequest fetch context).result =
      .ok ⟨resp.status, [("Content-Type", "application/json")],
        JSON.stringify (.obj [("message", .str "Gemini API tarafından bir hata döndürüldü."),
          ("error", e)])⟩ ∧
    (∀ readNumber : NumberReader, e.isJson = true → e.ReadsBack readNumber →
      JSON.parse readNumber (JSON.stringify
          (.obj [("message", .str "Gemini API tarafından bir hata döndürüldü."),
            ("error", e)])) =
        .ok (.obj [("message", .str "Gemini API tarafından bir hata döndürüldü."),
          ("error", e)])) := by
  obtain ⟨hm, hkey, v, inbound, hjson, hd, hf⟩ := outcome_of_mem fetch context resp hup
  refine ⟨?_, fun readNumber hj hrb =>
    parse_stringify readNumber _ (isJson_envelope _ e hj) (readsBack_envelope readNumber _ e hrb)⟩
  rw [onRequest_result fetch context hm,
    tryBlock_upstream_error fetch context hkey v hjson inbound hd resp hf hok errorBody hr e he,
    newResponse_ok _ _ _ hrange hbody]

theorem upstream_error_relayed_witness :
    (onRequest upstream400 (postOf (.obj [("prompt", .str "2+2?")]) (some "secret"))).result =
      .ok ⟨400, [("Content-Type", "application/json")],
        JSON.stringify (.obj [("message", .str "Gemini API tarafından bir hata döndürüldü."),
          ("error", .obj [("code", .num (.ofInt 400)), ("message", .str "bad")])])⟩ ∧
    JSON.parse readInteger (JSON.stringify
        (.obj [("message", .str "Gemini API tarafından bir hata döndürüldü."),
          ("error", .obj [("code", .num (.ofInt 400)), ("message", .str "bad")])])) =
      .ok (.obj [("message", .str "Gemini API tarafından bir hata döndürüldü."),
        ("error", .obj [("code", .num (.ofInt 400)), ("message", .str "bad")])]) :=
  have h := upstream_error_relayed upstream400
    (postOf (.obj [("prompt", .str "2+2?")]) (some "secret"))
    ⟨false, 400,
      .ok (.obj [("error", .obj [("code", .num (.ofInt 400)), ("message", .str "bad")])])⟩
    (.obj [("error", .obj [("code", .num (.ofInt 400)), ("message", .str "bad")])])
    (.obj [("code", .num (.ofInt 400)), ("message", .str "bad")])
    (List.Mem.head _) rfl rfl rfl (by decide) (by decide)
  ⟨h.1, h.2 readInteger rfl ⟨readInteger_ofInt 400 (by decide), trivial, trivial⟩⟩

/-- C7 fails for a number that is an infinity: for the upstream text
`{"score": 1e999}`, whose parsed value holds `Infinity`, the handler returns the
body `{"score":null}`, which parses to a different value. -/
theorem infinity_returned_as_null :
    upstreamOutcomes upstream200Infinity
        (onRequest upstream200Infinity
          (postOf (.obj [("prompt", .str "p")]) (some "secret"))).trace =
      [.ok ⟨true, 200, .ok (.obj [("score", .num (.infinite false))])⟩] ∧
    (onRequest upstream200Infinity
        (postOf (.obj [("prompt", .str "p")]) (some "secret"))).result =
      .ok ⟨200, [("Content-Type", "application/json")], "\x7b\"score\":null\x7d"⟩ ∧
    JSON.parse readInteger "\x7b\"score\":null\x7d" = .ok (.obj [("score", .null)]) ∧
    JVal.obj [("score", .null)] ≠ JVal.obj [("score", .num (.infinite false))] :=
  ⟨rfl, rfl, rfl, by simp⟩

/-- C7, for finite numbers: when the upstream answers the call of a `POST` run
successfully with the body `X`, the handler returns status 200,
`Content-Type: application/json`, and the serialization of `X` itself; when `X` is
a JSON value whose numbers are finite, so that the runtime reads them back,
parsing the returned body gives `X` back. -/
theorem upstream_success_relayed (fetch : Fetch) (context : Context) (resp : UpstreamResponse)
    (X : JVal)
    (hup : .ok resp ∈ upstreamOutcomes fetch (onRequest fetch context).trace)
    (hok : resp.ok = true) (hr : resp.json = .ok X) :
    (onRequest fetch context).result =
      .ok ⟨200, [("Content-Type", "application/json")], JSON.stringify X⟩ ∧
    (∀ readNumber : NumberReader, X.isJson = true → X.ReadsBack readNumber →
      JSON.parse readNumber (JSON.stringify X) = .ok X) := by
  obtain ⟨hm, hkey, v, inbound, hjson, hd, hf⟩ := outcome_of_mem fetch context resp hup
  refine ⟨?_, fun readNumber hX hrb => parse_stringify readNumber X hX hrb⟩
  rw [onRequest_of_ok fetch context hm _ _
    (tryBlock_upstream_ok fetch context hkey v hjson inbound hd resp hf hok X hr)]

theorem upstream_success_relayed_witness :
    (onRequest upstream200 (postOf (.obj [("prompt", .str "2+2?")]) (some "secret"))).result =
      .ok ⟨200, [("Content-Type", "application/json")],
        JSON.stringify (.obj [("candidates", .arr [.obj [("index", .num (.ofInt 0))]])])⟩ ∧
    JSON.parse readInteger
        (JSON.stringify (.obj [("candidates", .arr [.obj [("index", .num (.ofInt 0))]])])) =
      .ok (.obj [("candidates", .arr [.obj [("index", .num (.ofInt 0))]])]) :=
  have h := upstream_success_relayed upstream200
    (postOf (.obj [("prompt", .str "2+2?")]) (some "secret"))
    ⟨true, 200, .ok (.obj [("candidates", .arr [.obj [("index", .num (.ofInt 0))]])])⟩
    (.obj [("candidates", .arr [.obj [("index", .num (.ofInt 0))]])])
    (List.Mem.head _) rfl rfl
  ⟨h.1, h.2 readInteger rfl ⟨⟨⟨readInteger_ofInt 0 (by decide), trivial⟩, trivial⟩, trivial⟩⟩

/-- C8: a `POST` without the credential is answered with status 500 and a JSON
body that parses to `{ message, error }`, both non-empty strings, `error` being
the text of the missing-credential exception; this holds for every request body,
the body is not parsed and `fetch` is not called. -/
theorem missing_credential_reported (fetch : Fetch) (request : Request)
    (readNumber : NumberReader) (hm : request.method = "POST") :
    onRequest fetch ⟨request, ⟨none⟩⟩ =
      ⟨[.readEnv, .consoleErrorException "Cloudflare Function Error:"
          "API anahtarı bulunamadı. Lütfen Cloudflare ayarlarını kontrol edin."],
        .ok ⟨500, [("Content-Type", "application/json")],
          JSON.stringify (.obj [("message", .str "Sunucu fonksiyonunda kritik bir hata oluştu."),
            ("error",
              .str "API anahtarı bulunamadı. Lütfen Cloudflare ayarlarını kontrol edin.")])⟩⟩ ∧
    JSON.parse readNumber (JSON.stringify
        (.obj [("message", .str "Sunucu fonksiyonunda kritik bir hata oluştu."),
          ("error",
            .str "API anahtarı bulunamadı. Lütfen Cloudflare ayarlarını kontrol edin.")])) =
      .ok (.obj [("message", .str "Sunucu fonksiyonunda kritik bir hata oluştu."),
        ("error",
          .str "API anahtarı bulunamadı. Lütfen Cloudflare ayarlarını kontrol edin.")]) ∧
    "Sunucu fonksiyonunda kritik bir hata oluştu." ≠ "" ∧
    "API anahtarı bulunamadı. Lütfen Cloudflare ayarlarını kontrol edin." ≠ "" := by
  refine ⟨?_, parse_stringify readNumber _ (isJson_envelope _ _ rfl)
    (readsBack_envelope readNumber _ _ trivial), by decide, by decide⟩
  exact onRequest_of_throw fetch ⟨request, ⟨none⟩⟩ hm _ _ (tryBlock_keyMissing fetch _ rfl)

theorem missing_credential_reported_witness :
    (onRequest upstream200 ⟨⟨"POST", .error "Unexpected token"⟩, ⟨none⟩⟩).trace =
      [.readEnv, .consoleErrorException "Cloudflare Function Error:"
          "API anahtarı bulunamadı. Lütfen Cloudflare ayarlarını kontrol edin."] :=
  congrArg Eff.trace
    (missing_credential_reported upstream200 ⟨"POST", .error "Unexpected token"⟩
      readInteger rfl).1

/-- C9: for a `POST`, every exception raised inside the handler is caught and
answered with status 500, `Content-Type: application/json` and a JSON body that
parses to `{ message: <fixed text>, error: <the exception message> }`: this
covers the missing credential, a request body that is not JSON, a failing `fetch`
and an upstream body that is not JSON; and the handler always returns a
response. -/
theorem post_exceptions_reported (fetch : Fetch) (context : Context)
    (readNumber : NumberReader) (hm : context.request.method = "POST") :
    (∃ r, (onRequest fetch context).result = .ok r) ∧
    (∀ e, (tryBlock fetch context).result = .error e →
      (onRequest fetch context).result =
        .ok ⟨500, [("Content-Type", "application/json")],
          JSON.stringify (.obj [("message", .str "Sunucu fonksiyonunda kritik bir hata oluştu."),
            ("error", .str e)])⟩ ∧
      JSON.parse readNumber (JSON.stringify
          (.obj [("message", .str "Sunucu fonksiyonunda kritik bir hata oluştu."),
            ("error", .str e)])) =
        .ok (.obj [("message", .str "Sunucu fonksiyonunda kritik bir hata oluştu."),
          ("error", .str e)])) ∧
    (keyMissing context.env.GEMINI_API_KEY = true →
      (tryBlock fetch context).result =
        .error "API anahtarı bulunamadı. Lütfen Cloudflare ayarlarını kontrol edin.") ∧
    (∀ e, keyMissing context.env.GEMINI_API_KEY = false → context.request.json = .error e →
      (tryBlock fetch context).result = .error e) ∧
    (∀ call e, call ∈ fetchCalls (onRequest fetch context).trace → fetch call = .error e →
      (tryBlock fetch context).result = .error e) ∧
    (∀ call resp e, call ∈ fetchCalls (onRequest fetch context).trace →
      fetch call = .ok resp → resp.json = .error e →
      (tryBlock fetch context).result = .error e) := by
  have hres := onRequest_result fetch context hm
  refine ⟨?_, ?_, ?_, ?_, ?_, ?_⟩
  · cases h : (tryBlock fetch context).result with
    | ok r => exact ⟨r, by rw [hres, h]⟩
    | error e => exact ⟨_, by rw [hres, h]; exact catchBlock_result e⟩
  · intro e h
    refine ⟨?_, parse_stringify readNumber _ (isJson_envelope _ _ rfl)
      (readsBack_envelope readNumber _ _ trivial)⟩
    rw [hres, h]
    exact catchBlock_result e
  · intro hkey
    rw [tryBlock_keyMissing fetch context hkey]
  · intro e hkey hjson
    rw [tryBlock_requestJson_throws fetch context hkey e hjson]
  · intro call e hc hf
    exact (tryBlock_throws_of_mem fetch context call hc).1 e hf
  · intro call resp e hc hf hr
    exact (tryBlock_throws_of_mem fetch context call hc).2 resp e hf hr

theorem post_exceptions_reported_witness :
    (onRequest upstreamDown (postOf (.obj [("prompt", .str "2+2?")]) (some "secret"))).result =
      .ok ⟨500, [("Content-Type", "application/json")],
        JSON.stringify (.obj [("message", .str "Sunucu fonksiyonunda kritik bir hata oluştu."),
          ("error", .str "fetch failed")])⟩ :=
  ((post_exceptions_reported upstreamDown
      (postOf (.obj [("prompt", .str "2+2?")]) (some "secret")) readInteger rfl).2.1
    "fetch failed" rfl).1

/-- C10 fails for the body `null`: the JSON text `null` parses, but destructuring
`null` throws, so a `POST` with a credential and that body issues no upstream
request and is answered with status 500. -/
theorem null_body_sends_nothing :
    (postOf .null (some "secret")).request.json = .ok .null ∧
    fetchCalls (onRequest upstream200 (postOf .null (some "secret"))).trace = [] ∧
    (onRequest upstream200 (postOf .null (some "secret"))).result =
      .ok ⟨500, [("Content-Type", "application/json")],
        JSON.stringify (.obj [("message", .str "Sunucu fonksiyonunda kritik bir hata oluştu."),
          ("error", .str (destructureMessage "null"))])⟩ :=
  ⟨rfl, rfl, rfl⟩

/-- C10, for a body other than `null`: for a `POST` with a non-empty credential
`k` whose body parses to a value other than `null`, exactly one upstream request
is issued: method `POST`, the fixed URL followed by `k`,
`Content-Type: application/json`, and as body the serialization of the payload,
whose `contents` is a one-element list holding the `user` message with the
constructed parts. -/
theorem one_upstream_request (fetch : Fetch) (context : Context) (k : String) (v : JVal)
    (hm : context.request.method = "POST") (hkey : context.env.GEMINI_API_KEY = some k)
    (hk : k ≠ "") (hjson : context.request.json = .ok v)
    (hn : v ≠ .null) (hu : v ≠ .undefined) :
    fetchCalls (onRequest fetch context).trace =
      [{ url := "https://generativelanguage.googleapis.com/v1beta/models/gemini-2.5-flash:generateContent?key=" ++ k
         method := "POST"
         headers := [("Content-Type", "application/json")]
         body := JSON.stringify (.obj
          (("contents", .arr [.obj [("role", .str "user"),
            ("parts", .arr (buildParts (v.field "prompt") (v.field "imageBase64Data")))]]) ::
            (if ((v.field "isChat").orDefault (.bool false)).truthy then []
              else [("generationConfig", generationConfig)]))) }] := by
  have hnull : v.isNullish = false := by
    cases v <;> simp [JVal.isNullish] at hn hu ⊢
  rw [fetchCalls_of_key fetch context k v hm hkey hk hjson, hnull]
  cases hc : ((v.field "isChat").orDefault (.bool false)).truthy <;>
    simp [buildPayload, hc]

theorem one_upstream_request_witness :
    (fetchCalls (onRequest upstream200
      (postOf (.obj [("prompt", .str "2+2?")]) (some "secret"))).trace).length = 1 :=
  congrArg List.length (one_upstream_request upstream200
    (postOf (.obj [("prompt", .str "2+2?")]) (some "secret")) "secret"
    (.obj [("prompt", .str "2+2?")]) rfl rfl (by decide) rfl (by simp) (by simp))

end GeminiProxy
